import Mathlib

/-
  Verification development for the agent-ws WebSocket bridge.

  Shallow embedding of:
  - src/server/protocol.ts   (message validation: parseClientMessage)
  - src/server/websocket.ts  (per-connection session state machine)
  - src/process/claude-runner.ts and src/process/codex-runner.ts
    (process runner lifecycle and stream-line translation)

  JavaScript runtime values are modelled by `JsValue` (with `undefined` for
  `undefined` and a NaN-aware number type), JSON.parse by an
  `Option JsValue` input (`none` = the parse threw), and the event-driven
  execution by explicit step functions over event lists.
-/

namespace AgentWs

/-- A JavaScript number: either NaN or an (idealised) rational value. -/
inductive JsNum where
  | nan : JsNum
  | val : Rat → JsNum
deriving DecidableEq, Repr

/-- A JavaScript runtime value as seen by the validation code.
`undefined` models `undefined` (e.g. a missing object field). -/
inductive JsValue where
  | undefined : JsValue
  | nullv : JsValue
  | bool : Bool → JsValue
  | num : JsNum → JsValue
  | str : String → JsValue
  | arr : List JsValue → JsValue
  | obj : List (String × JsValue) → JsValue
deriving Repr

/-- JavaScript truthiness of a value (`if (x)`): `undefined`, `null`,
`false`, `NaN`, `0` and `""` are falsy, everything else truthy. -/
def truthy : JsValue → Bool
  | .undefined => false
  | .nullv => false
  | .bool b => b
  | .num .nan => false
  | .num (.val q) => q ≠ 0
  | .str s => s ≠ ""
  | .arr _ => true
  | .obj _ => true

/-- JavaScript `a || b`: the first operand if truthy, else the second. -/
def jsOr (a b : JsValue) : JsValue :=
  if truthy a then a else b

/-- Field lookup in an object's field list (first match wins);
missing fields give `undefined`. -/
def getField : List (String × JsValue) → String → JsValue
  | [], _ => .undefined
  | (k, v) :: rest, key => if k = key then v else getField rest key

/-- `v[key]` with optional-chaining semantics: non-objects give
`undefined` (this also models `obj?.field` on `undefined`). -/
def JsValue.get (v : JsValue) (key : String) : JsValue :=
  match v with
  | .obj fields => getField fields key
  | _ => .undefined

/-- Replace the first binding of `key` in a field list
(appending if absent). -/
def setFieldList : List (String × JsValue) → String → JsValue → List (String × JsValue)
  | [], key, v => [(key, v)]
  | (k, w) :: rest, key, v =>
      if k = key then (key, v) :: rest else (k, w) :: setFieldList rest key v

/-- Set the `thinkingTokens` field of an object value; other values are
returned unchanged. Used to state that validation is insensitive to this
field's value. -/
def setTk (o : JsValue) (v : JsValue) : JsValue :=
  match o with
  | .obj fields => .obj (setFieldList fields "thinkingTokens" v)
  | o => o

/-- UTF-8 encoded byte length of a string, modelling
`new TextEncoder().encode(s).byteLength`. -/
def utf8Len (s : String) : Nat :=
  (s.data.map Char.utf8Size).sum

/-- Does `hay` start with `needle` (on character lists)? -/
def startsWithSeq : List Char → List Char → Bool
  | [], _ => true
  | _ :: _, [] => false
  | a :: as, b :: bs => a = b && startsWithSeq as bs

/-- Does `needle` occur contiguously inside `hay`? -/
def containsSeq (needle : List Char) : List Char → Bool
  | [] => startsWithSeq needle []
  | b :: rest => startsWithSeq needle (b :: rest) || containsSeq needle rest

/-- Substring test, modelling `expect(err).toMatch(/.../)` on a literal. -/
def substrOf (needle hay : String) : Bool :=
  containsSeq needle.data hay.data

/-! ## Protocol constants (src/server/protocol.ts) -/

def MAX_PROMPT_BYTES : Nat := 512 * 1024
def MAX_SYSTEM_PROMPT_BYTES : Nat := 64 * 1024
def MAX_IMAGES : Nat := 4
def MAX_IMAGE_BASE64_BYTES : Nat := 10 * 1024 * 1024
def ALLOWED_IMAGE_TYPES : List String :=
  ["image/png", "image/jpeg", "image/gif", "image/webp"]
def MAX_PROJECT_ID_LENGTH : Nat := 128
def MAX_FILES : Nat := 100
def MAX_TOTAL_FILE_BYTES : Nat := 50 * 1024 * 1024

/-- Characters admitted by the projectId regular expression
`[a-zA-Z0-9._-]`. -/
def projectIdChar (c : Char) : Bool :=
  (('a' ≤ c && c ≤ 'z') || ('A' ≤ c && c ≤ 'Z') || ('0' ≤ c && c ≤ '9')
    || c = '.' || c = '_' || c = '-')

/-- The test `PROJECT_ID_PATTERN.test(s)` for `/^[a-zA-Z0-9._-]+$/`:
nonempty and every character in the class. -/
def PROJECT_ID_PATTERN (s : String) : Bool :=
  !s.data.isEmpty && s.data.all projectIdChar

/-! ## Parsed message shapes -/

structure PromptImage where
  media_type : String
  data : String
deriving DecidableEq, Repr

structure PromptFile where
  path : String
  content : String
deriving DecidableEq, Repr

inductive Provider where
  | claude : Provider
  | codex : Provider
deriving DecidableEq, Repr

structure PromptMessage where
  prompt : String
  model : Option String
  systemPrompt : Option String
  projectId : Option String
  requestId : String
  provider : Provider
  thinkingTokens : Option Rat
  images : Option (List PromptImage)
  files : Option (List PromptFile)
deriving DecidableEq, Repr

inductive ClientMessage where
  | promptMsg : PromptMessage → ClientMessage
  | cancelMsg : Option String → ClientMessage
deriving DecidableEq, Repr

inductive ParseResult where
  | ok : ClientMessage → ParseResult
  | err : String → ParseResult
deriving DecidableEq, Repr

/-- The per-image validation loop of `parseClientMessage`: each entry must
be a non-null object (JS arrays also pass `typeof === "object"`) with
string `media_type` in the allow-list and string `data` within the size
cap. First violation wins. -/
def parseImagesList : List JsValue → Except String (List PromptImage)
  | [] => .ok []
  | img :: rest =>
    match img with
    | .obj _ =>
      match img.get "media_type", img.get "data" with
      | .str mt, .str d =>
        if !(ALLOWED_IMAGE_TYPES.contains mt) then
          .error ("Unsupported image type: " ++ mt.take 50 ++ " (allowed: png, jpeg, gif, webp)")
        else if utf8Len d > MAX_IMAGE_BASE64_BYTES then
          .error ("Image exceeds maximum size of " ++ toString MAX_IMAGE_BASE64_BYTES ++ " bytes")
        else
          match parseImagesList rest with
          | .error e => .error e
          | .ok tl => .ok (⟨mt, d⟩ :: tl)
      | _, _ => .error "Each image must have string media_type and data fields"
    | .arr _ =>
      -- a JS array passes `typeof img === "object"`, but indexing it by
      -- a string key yields `undefined`, so the field-type check fires
      .error "Each image must have string media_type and data fields"
    | _ => .error "Each image must be an object with media_type and data"

/-- The per-file validation loop of `parseClientMessage`, threading the
running total of UTF-8 content bytes. -/
def parseFilesList (total : Nat) : List JsValue → Except String (List PromptFile)
  | [] => .ok []
  | f :: rest =>
    match f with
    | .obj _ =>
      match f.get "path", f.get "content" with
      | .str p, .str c =>
        if p.length = 0 then
          .error "File path must not be empty"
        else if total + utf8Len c > MAX_TOTAL_FILE_BYTES then
          .error ("Total file content exceeds maximum size of " ++ toString MAX_TOTAL_FILE_BYTES ++ " bytes")
        else
          match parseFilesList (total + utf8Len c) rest with
          | .error e => .error e
          | .ok tl => .ok (⟨p, c⟩ :: tl)
      | _, _ => .error "Each file must have string path and content fields"
    | .arr _ =>
      .error "Each file must have string path and content fields"
    | _ => .error "Each file must be an object with path and content"

/-- The `images` field check: absent/empty/non-array gives no images,
oversized arrays and invalid entries give the corresponding error. -/
def parseImagesField (data : JsValue) : Except String (Option (List PromptImage)) :=
  match data.get "images" with
  | .arr imgs =>
    if imgs.length = 0 then .ok none
    else if imgs.length > MAX_IMAGES then
      .error ("Too many images (max " ++ toString MAX_IMAGES ++ ")")
    else
      match parseImagesList imgs with
      | .error e => .error e
      | .ok pimgs => .ok (some pimgs)
  | _ => .ok none

/-- The `files` field check, analogous to `parseImagesField`. -/
def parseFilesField (data : JsValue) : Except String (Option (List PromptFile)) :=
  match data.get "files" with
  | .arr fs =>
    if fs.length = 0 then .ok none
    else if fs.length > MAX_FILES then
      .error ("Too many files (max " ++ toString MAX_FILES ++ ")")
    else
      match parseFilesList 0 fs with
      | .error e => .error e
      | .ok pfs => .ok (some pfs)
  | _ => .ok none

/-- The images/files checks and final message construction at the end of
the `case "prompt"` branch of `parseClientMessage`. -/
def parsePromptTail (data : JsValue) (prompt requestId : String) : ParseResult :=
  match parseImagesField data with
  | .error e => .err e
  | .ok parsedImages =>
    match parseFilesField data with
    | .error e => .err e
    | .ok parsedFiles =>
      .ok (.promptMsg {
        prompt := prompt
        model := match data.get "model" with | .str m => some m | _ => none
        systemPrompt := match data.get "systemPrompt" with | .str s => some s | _ => none
        projectId := match data.get "projectId" with | .str p => some p | _ => none
        requestId := requestId
        provider := match data.get "provider" with | .str "codex" => .codex | _ => .claude
        thinkingTokens :=
          match data.get "thinkingTokens" with
          | .num (.val q) => if 0 ≤ q then some q else none
          | _ => none
        images := parsedImages
        files := parsedFiles })

/-- The projectId length and charset checks of the `case "prompt"`
branch (applied only when the field is a string). -/
def parsePromptProj (data : JsValue) (prompt requestId : String) : ParseResult :=
  match data.get "projectId" with
  | .str pid =>
    if pid.length > MAX_PROJECT_ID_LENGTH then
      .err ("projectId exceeds maximum length of " ++ toString MAX_PROJECT_ID_LENGTH)
    else if !PROJECT_ID_PATTERN pid then
      .err "projectId contains invalid characters (allowed: alphanumeric, hyphens, underscores, dots)"
    else parsePromptTail data prompt requestId
  | _ => parsePromptTail data prompt requestId

/-- The `case "prompt"` branch of `parseClientMessage`, checks in source
order: prompt presence/size, requestId, systemPrompt size, projectId
length and charset, images, files, then construction of the message. -/
def parsePrompt (data : JsValue) : ParseResult :=
  match data.get "prompt" with
  | .str prompt =>
    if prompt.length = 0 then .err "Missing or empty 'prompt' field"
    else if utf8Len prompt > MAX_PROMPT_BYTES then
      .err ("Prompt exceeds maximum size of " ++ toString MAX_PROMPT_BYTES ++ " bytes")
    else
      match data.get "requestId" with
      | .str requestId =>
        if requestId.length = 0 then .err "Missing or empty 'requestId' field"
        else
          match data.get "systemPrompt" with
          | .str sys =>
            if utf8Len sys > MAX_SYSTEM_PROMPT_BYTES then
              .err ("System prompt exceeds maximum size of " ++ toString MAX_SYSTEM_PROMPT_BYTES ++ " bytes")
            else parsePromptProj data prompt requestId
          | _ => parsePromptProj data prompt requestId
      | _ => .err "Missing or empty 'requestId' field"
  | _ => .err "Missing or empty 'prompt' field"

/-- `parseClientMessage` (src/server/protocol.ts). The input is the
result of `JSON.parse` on the raw text: `none` when the parse threw. -/
def parseClientMessage (input : Option JsValue) : ParseResult :=
  match input with
  | none => .err "Invalid JSON"
  | some data =>
    match data with
    | .obj _ =>
      match data.get "type" with
      | .str t =>
        if t = "prompt" then parsePrompt data
        else if t = "cancel" then
          .ok (.cancelMsg (match data.get "requestId" with | .str s => some s | _ => none))
        else .err ("Unknown message type: " ++ t.take 50)
      | _ => .err "Missing or invalid 'type' field"
    | _ => .err "Message must be a JSON object"

/-! ## Path model

Absolute filesystem paths are modelled as lists of components.
`resolveSeg` models Node's `resolve(base, seg)` for a single path
segment (a validated projectId contains no `/`, so it is one segment;
`.` and `..` are resolved, everything else is a literal child name). -/

abbrev Path := List String

/-- `resolve(base, seg)` for one segment. -/
def resolveSeg (base : Path) (seg : String) : Path :=
  if seg = "." then base
  else if seg = ".." then base.dropLast
  else base ++ [seg]

/-- The runners' containment test
`cwd.startsWith(base + "/") || cwd === base` on normalized paths:
`cwd` equals `base` or lies strictly below it. -/
def underBase (base cwd : Path) : Bool :=
  cwd == base || (base.isPrefixOf cwd && cwd.length > base.length)

/-! ## Connection session model (src/server/websocket.ts)

The per-connection state machine: admission of prompts, cancellation,
terminal delivery with watcher flush. Outbound effects are recorded as an
explicit action trace. The `flushAndStopFileWatcher().then(...)` chain in
the terminal handlers is modelled as a single atomic step, which is the
ordering the code establishes (flush resolves before the terminal
message is sent). -/

/-- A file-change record as delivered by the Change Watcher. -/
structure Change where
  path : String
  changeType : String
  content : Option String
deriving DecidableEq, Repr

/-- Outbound wire messages relevant to the session claims. -/
inductive OutMsg where
  | chunk : String → String → Bool → OutMsg
  | complete : String → OutMsg
  | errorMsg : String → Option String → OutMsg
  | toolEvent : String → String → OutMsg
  | fileChange : String → Change → OutMsg
deriving DecidableEq, Repr

/-- Observable actions of a session step: sending a wire message,
invoking `activeRunner.run`, invoking `activeRunner.kill`, creating a
directory, or starting a file watcher on a directory. -/
inductive Act where
  | send : OutMsg → Act
  | runnerRun : String → Act
  | runnerKill : Act
  | mkdir : Path → Act
  | watcherStart : Path → Act
deriving DecidableEq, Repr

/-- Modelled from the spec: the FileWatcher implementation is not under
src/ (only its tests and callers are). Per spec §4.3 it holds per-path
debounced pending changes; `flush` force-delivers all pending changes
through the registered `onChange` handler, and `stop` discards pending
work. The handler registered by `handlePrompt` closes over the request
id, recorded here as `reqId`. -/
structure WatcherSt where
  dir : Path
  reqId : String
  pending : List Change
deriving DecidableEq, Repr

/-- Per-connection state (`ConnectionState` in src/server/websocket.ts);
runner instances are tracked by presence flags, the active runner by its
provider. -/
structure Conn where
  hasClaudeRunner : Bool
  hasCodexRunner : Bool
  activeRunner : Option Provider
  activeRequestId : Option String
  watcher : Option WatcherSt
deriving DecidableEq, Repr

/-- The state of a freshly accepted connection. -/
def initConn : Conn :=
  { hasClaudeRunner := false, hasCodexRunner := false, activeRunner := none
    activeRequestId := none, watcher := none }

/-- `FileWatcher.flush` as observed through the session: every pending
change is delivered as a `file_change` message bound to the request id
captured by the watcher's `onChange` handler. -/
def flushActs (w : Option WatcherSt) : List Act :=
  match w with
  | some w => w.pending.map (fun c => .send (.fileChange w.reqId c))
  | none => []

/-- `handlePrompt`: reject when a request is active; otherwise mark the
request active, resolve (lazily creating) the provider's runner, and —
when a projectId is present — create the session directory, start a
watcher bound to this request, then dispatch `run`. -/
def handlePrompt (base : Path) (s : Conn) (m : PromptMessage) : Conn × List Act :=
  match s.activeRequestId with
  | some _ =>
    (s, [.send (.errorMsg "Request already in progress" (some m.requestId))])
  | none =>
    let s1 := { s with activeRequestId := some m.requestId }
    let s2 :=
      match m.provider with
      | .codex => { s1 with hasCodexRunner := true, activeRunner := some .codex }
      | .claude => { s1 with hasClaudeRunner := true, activeRunner := some .claude }
    match m.projectId with
    | some pid =>
      let cwd := resolveSeg base pid
      ({ s2 with watcher := some ⟨cwd, m.requestId, []⟩ },
       [.mkdir cwd, .watcherStart cwd, .runnerRun m.requestId])
    | none => (s2, [.runnerRun m.requestId])

/-- `handleCancel`: stop and drop the watcher without flushing, kill the
active runner if any, clear the active request id, and send
`error("Request cancelled")` when a request was active. -/
def handleCancel (s : Conn) : Conn × List Act :=
  let killActs : List Act :=
    match s.activeRunner with
    | some _ => [.runnerKill]
    | none => []
  let sendActs : List Act :=
    match s.activeRequestId with
    | some r => [.send (.errorMsg "Request cancelled" (some r))]
    | none => []
  ({ s with watcher := none, activeRequestId := none }, killActs ++ sendActs)

/-- The `onComplete` run handler: flush and stop the watcher, clear the
active request id, then send `complete`. -/
def handleRunnerComplete (s : Conn) (rid : String) : Conn × List Act :=
  ({ s with watcher := none, activeRequestId := none },
   flushActs s.watcher ++ [.send (.complete rid)])

/-- The `onError` run handler: flush and stop the watcher, clear the
active request id, then send `error`. -/
def handleRunnerError (s : Conn) (msg : String) (rid : String) : Conn × List Act :=
  ({ s with watcher := none, activeRequestId := none },
   flushActs s.watcher ++ [.send (.errorMsg msg (some rid))])

/-- `handleMessage`: parse the raw client message; on failure reply with
an `error` carrying no request id, otherwise dispatch by type. -/
def handleClientMessage (base : Path) (s : Conn) (input : Option JsValue) : Conn × List Act :=
  match parseClientMessage input with
  | .err e => (s, [.send (.errorMsg e none)])
  | .ok (.promptMsg m) => handlePrompt base s m
  | .ok (.cancelMsg _) => handleCancel s

/-- Events a connection session reacts to: an inbound client message,
run-handler invocations from the active runner, a raw change being
debounced by the watcher, and a watcher debounce timer firing. -/
inductive SEvent where
  | clientMsg : Option JsValue → SEvent
  | runnerComplete : String → SEvent
  | runnerError : String → String → SEvent
  | runnerChunk : String → String → Bool → SEvent
  | runnerFileChange : Change → String → SEvent
  | watcherObserve : Change → SEvent
  | watcherFire : SEvent
deriving Repr

/-- One atomic step of the session. -/
def step (base : Path) (s : Conn) : SEvent → Conn × List Act
  | .clientMsg input => handleClientMessage base s input
  | .runnerComplete rid => handleRunnerComplete s rid
  | .runnerError msg rid => handleRunnerError s msg rid
  | .runnerChunk content rid thinking => (s, [.send (.chunk content rid thinking)])
  | .runnerFileChange c rid => (s, [.send (.fileChange rid c)])
  | .watcherObserve c =>
    match s.watcher with
    | some w => ({ s with watcher := some { w with pending := w.pending ++ [c] } }, [])
    | none => (s, [])
  | .watcherFire =>
    match s.watcher with
    | some w =>
      match w.pending with
      | c :: rest =>
        ({ s with watcher := some { w with pending := rest } },
         [.send (.fileChange w.reqId c)])
      | [] => (s, [])
    | none => (s, [])

/-- The action trace produced by running a sequence of events. -/
def runTrace (base : Path) (s : Conn) : List SEvent → List Act
  | [] => []
  | ev :: rest =>
    let p := step base s ev
    p.2 ++ runTrace base p.1 rest

/-! ## Process runner model
(src/process/claude-runner.ts, src/process/codex-runner.ts)

A run is modelled as a fold over the events that can reach a single
`run()` call: stdout lines (pre-parsed JSON, `none` for non-JSON lines),
the subprocess `exit` and `error` events, the timeout timer firing, and
external `kill()` calls. Run-handler invocations are recorded as
outputs. -/

/-- Canonical run-handler invocations. Payloads that the source passes
through from parsed JSON untyped (chunk text, stream error messages,
file-change fields, tool ids) are kept as `JsValue`. -/
inductive ROut where
  | chunk : JsValue → String → Bool → ROut
  | complete : String → ROut
  | rerror : JsValue → String → ROut
  | toolEvent : String → JsValue → JsValue → String → ROut
  | fileChange : JsValue → JsValue → JsValue → String → ROut
deriving Repr

/-- Is this a terminal callback (`onComplete` or `onError`)? -/
def ROut.isTerminal : ROut → Bool
  | .complete _ => true
  | .rerror _ _ => true
  | _ => false

/-- Number of terminal callbacks in an output list. -/
def countTerm (outs : List ROut) : Nat :=
  outs.countP (fun o => o.isTerminal)

/-- Runner state: a live subprocess handle, a pending timeout timer, the
`disposed` and `killed` flags, the per-run one-shot `handlersDone` flag
(the `finish` guard's closure variable), and the captured Codex thread
id. -/
structure RunSt where
  processAlive : Bool
  timeoutActive : Bool
  disposed : Bool
  killed : Bool
  handlersDone : Bool
  threadId : Option JsValue
deriving Repr

/-- The runner state just after `run()` has spawned a subprocess. -/
def initRunSt : RunSt :=
  { processAlive := true, timeoutActive := true, disposed := false
    killed := false, handlersDone := false, threadId := none }

/-- `kill()` (identical in both runners): always clear the timeout; when
a subprocess is live, set `killed` and drop the handle. The
`process.kill()` call itself is wrapped in try/catch in the source, so
the whole operation is total. -/
def killFn (s : RunSt) : RunSt :=
  let s1 := { s with timeoutActive := false }
  if s1.processAlive then { s1 with killed := true, processAlive := false } else s1

/-- The one-shot `finish` guard: honour the callback only the first
time, clearing the timeout. -/
def finishR (s : RunSt) (out : ROut) : RunSt × List ROut :=
  if s.handlersDone then (s, [])
  else ({ s with handlersDone := true, timeoutActive := false }, [out])

/-- `ClaudeRunner.parseStreamLine`: outputs for one content block of a
complete assistant message (pattern 5). -/
def claudeBlockOuts (rid : String) (b : JsValue) : List ROut :=
  match b.get "type" with
  | .str "text" => if truthy (b.get "text") then [.chunk (b.get "text") rid false] else []
  | .str "thinking" => if truthy (b.get "thinking") then [.chunk (b.get "thinking") rid true] else []
  | .str "tool_use" =>
      [.toolEvent "start" (b.get "name") (b.get "id") rid,
       .toolEvent "complete" .undefined (b.get "id") rid]
  | _ => []

/-- `claudeBlockOuts` over an assistant message's content list. -/
def claudeBlocksOuts (rid : String) : List JsValue → List ROut
  | [] => []
  | b :: rest => claudeBlockOuts rid b ++ claudeBlocksOuts rid rest

/-- The shared raw-API-event translation (patterns 1–3 of
`ClaudeRunner.parseStreamLine`, also reused inside the `stream_event`
wrapper): text/thinking deltas become chunks, `content_block_start` of a
tool use and `content_block_stop` become tool events. -/
def claudeRawOuts (rid : String) (e : JsValue) : List ROut :=
  match e.get "type" with
  | .str "content_block_delta" =>
    match (e.get "delta").get "type" with
    | .str "text_delta" =>
      if truthy ((e.get "delta").get "text") then [.chunk ((e.get "delta").get "text") rid false] else []
    | .str "thinking_delta" =>
      if truthy ((e.get "delta").get "thinking") then [.chunk ((e.get "delta").get "thinking") rid true] else []
    | _ => []
  | .str "content_block_start" =>
    match (e.get "content_block").get "type" with
    | .str "tool_use" =>
      [.toolEvent "start" ((e.get "content_block").get "name") ((e.get "content_block").get "id") rid]
    | _ => []
  | .str "content_block_stop" =>
    [.toolEvent "complete" .undefined ((e.get "content_block").get "id") rid]
  | _ => []

/-- `ClaudeRunner.parseStreamLine` over one stdout line (`none` models a
non-JSON line swallowed by the catch). It never touches runner state and
never invokes a terminal callback. -/
def claudeParseLine (rid : String) (j : Option JsValue) (s : RunSt) : RunSt × List ROut :=
  match j with
  | none => (s, [])
  | some e =>
    match e.get "type" with
    | .str "content_block_delta" => (s, claudeRawOuts rid e)
    | .str "content_block_start" => (s, claudeRawOuts rid e)
    | .str "content_block_stop" => (s, claudeRawOuts rid e)
    | .str "stream_event" =>
      if truthy (e.get "event") then (s, claudeRawOuts rid (e.get "event")) else (s, [])
    | .str "assistant" =>
      match (e.get "message").get "content" with
      | .arr blocks => (s, claudeBlocksOuts rid blocks)
      | _ => (s, [])
    | _ => (s, [])

/-- `CodexRunner.parseStreamLine`: thread-id capture, agent/reasoning
chunks, file-change and command-execution items — and the `turn.failed`
and `error` shapes, which invoke `handlers.onError` directly (not
through the `finish` guard). -/
def codexParseLine (rid : String) (j : Option JsValue) (s : RunSt) : RunSt × List ROut :=
  match j with
  | none => (s, [])
  | some e =>
    match e.get "type" with
    | .str "thread.started" =>
      if truthy (e.get "thread_id") then ({ s with threadId := some (e.get "thread_id") }, [])
      else (s, [])
    | .str "item.completed" =>
      match (e.get "item").get "type" with
      | .str "agent_message" =>
        if truthy ((e.get "item").get "text") then (s, [.chunk ((e.get "item").get "text") rid false])
        else (s, [])
      | .str "reasoning" =>
        if truthy ((e.get "item").get "text") then (s, [.chunk ((e.get "item").get "text") rid true])
        else (s, [])
      | .str "file_change" =>
        (s, [.fileChange (jsOr ((e.get "item").get "path") (jsOr ((e.get "item").get "filename") (.str "")))
               (jsOr ((e.get "item").get "change_type") (.str "update"))
               ((e.get "item").get "content") rid])
      | .str "command_execution" =>
        (s, [.toolEvent "start" (.str "command") ((e.get "item").get "id") rid,
             .toolEvent "complete" .undefined ((e.get "item").get "id") rid])
      | _ => (s, [])
    | .str "turn.failed" =>
      (s, [.rerror (jsOr ((e.get "error").get "message") (jsOr (e.get "message") (.str "Codex turn failed"))) rid])
    | .str "error" =>
      (s, [.rerror (jsOr (e.get "message") (jsOr ((e.get "error").get "message") (.str "Codex error"))) rid])
    | _ => (s, [])

/-- Does a stdout line avoid the Codex stream shapes that invoke
`onError` directly (`turn.failed` and `error`)? -/
def lineOk (j : Option JsValue) : Bool :=
  match j with
  | none => true
  | some e =>
    match e.get "type" with
    | .str "turn.failed" => false
    | .str "error" => false
    | _ => true

/-- Events that can reach one `run()` call after the spawn. -/
inductive RunEvent where
  | stdoutLine : Option JsValue → RunEvent
  | procExit : Option Int → Option String → RunEvent
  | procError : String → RunEvent
  | timeoutFire : RunEvent
  | killCall : RunEvent
deriving Repr

/-- One step of a run, shared by both runners (they differ in the line
translator and the CLI name used in exit diagnostics): the `exit`
handler is suppressed when `killed`, exit code 0 completes, any other
exit errs; the `error` handler and the timeout go through the `finish`
guard; the timeout kills first. -/
def runStep (parse : String → Option JsValue → RunSt → RunSt × List ROut)
    (cliName : String) (rid : String) (s : RunSt) : RunEvent → RunSt × List ROut
  | .stdoutLine j => parse rid j s
  | .procExit code signal =>
    let s1 := { s with processAlive := false }
    if s1.killed then (s1, [])
    else if code = some 0 then finishR s1 (.complete rid)
    else
      let reason :=
        match code with
        | some c => cliName ++ " CLI exited with code " ++ toString c
        | none => cliName ++ " CLI killed by signal " ++ (match signal with | some sg => sg | none => "unknown")
      finishR s1 (.rerror (.str reason) rid)
  | .procError msg => finishR { s with processAlive := false } (.rerror (.str msg) rid)
  | .timeoutFire => finishR (killFn s) (.rerror (.str "Process timed out") rid)
  | .killCall => (killFn s, [])

/-- Fold a run over its event sequence, collecting outputs. -/
def runFold (parse : String → Option JsValue → RunSt → RunSt × List ROut)
    (cliName : String) (rid : String) : RunSt → List RunEvent → RunSt × List ROut
  | s, [] => (s, [])
  | s, ev :: rest =>
    ((runFold parse cliName rid (runStep parse cliName rid s ev).1 rest).1,
     (runStep parse cliName rid s ev).2 ++
       (runFold parse cliName rid (runStep parse cliName rid s ev).1 rest).2)

/-- No external `kill()` call in the event sequence. -/
def noKillEvent (evs : List RunEvent) : Bool :=
  evs.all (fun ev => match ev with | .killCall => false | _ => true)

/-- Is this a terminal-driving run event (exit, error or timeout)? -/
def isTermRunEvent : RunEvent → Bool
  | .procExit _ _ => true
  | .procError _ => true
  | .timeoutFire => true
  | _ => false

/-- Some terminal-driving event (exit, error or timeout) occurs. -/
def hasTermEvent (evs : List RunEvent) : Bool :=
  evs.any isTermRunEvent

/-- Every stdout line in the sequence satisfies `lineOk`. -/
def linesOk (evs : List RunEvent) : Bool :=
  evs.all (fun ev => match ev with | .stdoutLine j => lineOk j | _ => true)

/-- The pre-spawn phase of `ClaudeRunner.run`: reject when disposed,
kill any previous subprocess, reset `killed`, validate session-directory
containment when a projectId is given, then spawn. The result's third
component is `none` when no subprocess was spawned, otherwise the
(optional) working directory passed to `spawn`. -/
def claudeRunStart (s : RunSt) (rid : String) (projectId : Option String) (base : Path) :
    RunSt × List ROut × Option (Option Path) :=
  if s.disposed then (s, [.rerror (.str "Runner has been disposed") rid], none)
  else
    let s1 := { killFn s with killed := false }
    match projectId with
    | some pid =>
      let cwd := resolveSeg base pid
      if !underBase base cwd then (s1, [.rerror (.str "Invalid projectId") rid], none)
      else ({ s1 with processAlive := true, timeoutActive := true, handlersDone := false },
            [], some (some cwd))
    | none =>
      ({ s1 with processAlive := true, timeoutActive := true, handlersDone := false },
       [], some none)

/-- The pre-spawn phase of `CodexRunner.run` (same structure as the
Claude one for the modelled aspects: disposed check, supersede kill,
projectId containment, spawn). -/
def codexRunStart (s : RunSt) (rid : String) (projectId : Option String) (base : Path) :
    RunSt × List ROut × Option (Option Path) :=
  if s.disposed then (s, [.rerror (.str "Runner has been disposed") rid], none)
  else
    let s1 := { killFn s with killed := false }
    match projectId with
    | some pid =>
      let cwd := resolveSeg base pid
      if !underBase base cwd then (s1, [.rerror (.str "Invalid projectId") rid], none)
      else ({ s1 with processAlive := true, timeoutActive := true, handlersDone := false },
            [], some (some cwd))
    | none =>
      ({ s1 with processAlive := true, timeoutActive := true, handlersDone := false },
       [], some none)

/-! ## Predicates used by the claims -/

/-- Did parsing succeed? -/
def ParseResult.isOk : ParseResult → Bool
  | .ok _ => true
  | .err _ => false

/-- Is this action the sending of a terminal wire message (`complete` or
`error`) carrying request id `R`? -/
def actIsTermSendR (R : String) : Act → Bool
  | .send (.complete r) => r == R
  | .send (.errorMsg _ (some r)) => r == R
  | _ => false

/-- Is this action the sending of a `file_change` message carrying
request id `R`? -/
def actIsFCR (R : String) : Act → Bool
  | .send (.fileChange r _) => r == R
  | _ => false

/-- After every terminal send for `R` in the trace, no `file_change` for
`R` follows (i.e. all `file_change` messages for `R` are sent strictly
before any terminal message for `R`). -/
def ordOk (R : String) : List Act → Bool
  | [] => true
  | a :: rest =>
    if actIsTermSendR R a then (rest.all (fun b => !actIsFCR R b)) && ordOk R rest
    else ordOk R rest

/-- Is this session event the arrival of a valid prompt message with
request id `R`? -/
def isPromptR (R : String) : SEvent → Bool
  | .clientMsg input =>
    match parseClientMessage input with
    | .ok (.promptMsg m) => m.requestId == R
    | _ => false
  | _ => false

/-- Is this session event a runner terminal callback for request `R`? -/
def isTermEvR (R : String) : SEvent → Bool
  | .runnerComplete r => r == R
  | .runnerError _ r => r == R
  | _ => false

/-- Is this session event a runner-driven file change for request `R`? -/
def isRFCR (R : String) : SEvent → Bool
  | .runnerFileChange _ r => r == R
  | _ => false

/-- Number of prompt arrivals with request id `R` in the event list. -/
def countPromptR (R : String) (evs : List SEvent) : Nat :=
  evs.countP (isPromptR R)

/-- No prompt with request id `R` arrives after a runner terminal
callback for `R`. -/
def noPromptAfterTermR (R : String) : List SEvent → Bool
  | [] => true
  | ev :: rest =>
    (if isTermEvR R ev then rest.all (fun e => !isPromptR R e) else true)
      && noPromptAfterTermR R rest

/-- No runner-driven file-change event for `R` in the list. -/
def noRFCR (R : String) (evs : List SEvent) : Bool :=
  evs.all (fun e => !isRFCR R e)

/-- Is the connection's watcher bound to request id `R`? -/
def watcherBoundR (R : String) (s : Conn) : Bool :=
  match s.watcher with
  | some w => w.reqId == R
  | none => false

/-! ## Claim C2 -/

/-- C2: while a request is active, an arriving prompt is rejected with
`error("Request already in progress", <new id>)` and the connection
state — including `activeRequestId`, `activeRunner` and `fileWatcher` —
is left exactly unchanged; in particular no runner is dispatched. -/
theorem prompt_rejected_while_active (base : Path) (s : Conn) (m : PromptMessage)
    (r0 : String) (h : s.activeRequestId = some r0) :
    handlePrompt base s m =
      (s, [.send (.errorMsg "Request already in progress" (some m.requestId))]) := by
  unfold handlePrompt
  rw [h]

def c2State : Conn :=
  { hasClaudeRunner := true, hasCodexRunner := false, activeRunner := some .claude
    activeRequestId := some "req-1", watcher := none }

def c2Msg : PromptMessage :=
  { prompt := "second", model := none, systemPrompt := none, projectId := none
    requestId := "req-2", provider := .claude, thinkingTokens := none
    images := none, files := none }

/-- Witness for C2 at a concrete busy connection and a concrete second
prompt. -/
theorem prompt_rejected_while_active_witness :
    c2State.activeRequestId = some "req-1" ∧
    handlePrompt [] c2State c2Msg =
      (c2State, [.send (.errorMsg "Request already in progress" (some "req-2"))]) :=
  ⟨rfl, prompt_rejected_while_active [] c2State c2Msg "req-1" rfl⟩

/-! ## Claim C5 -/

/-- C5: a cancel while request `r` is active (with a dispatched runner)
discards the watcher without flushing it, kills the active runner,
clears the active request id, and emits exactly the single message
`error("Request cancelled", r)`; afterwards a new prompt is admitted
(its `run` is dispatched). -/
theorem cancel_active_request (s : Conn) (r : String) (p : Provider)
    (h1 : s.activeRequestId = some r) (h2 : s.activeRunner = some p) :
    handleCancel s =
      ({ s with watcher := none, activeRequestId := none },
       [.runnerKill, .send (.errorMsg "Request cancelled" (some r))]) ∧
    (∀ (base : Path) (m : PromptMessage),
      Act.runnerRun m.requestId ∈ (handlePrompt base { s with watcher := none, activeRequestId := none } m).2) := by
  constructor
  · unfold handleCancel
    rw [h1, h2]
    rfl
  · intro base m
    unfold handlePrompt
    cases m.provider <;> cases hm : m.projectId <;> simp [hm]

def c5State : Conn :=
  { hasClaudeRunner := true, hasCodexRunner := false, activeRunner := some .claude
    activeRequestId := some "r1"
    watcher := some ⟨["tmp", "agent-ws-sessions", "p1"], "r1", [⟨"a.txt", "update", some "x"⟩]⟩ }

/-- Witness for C5 at a concrete connection with an active request, a
live watcher with pending changes, and a dispatched runner. -/
theorem cancel_active_request_witness :
    c5State.activeRequestId = some "r1" ∧
    handleCancel c5State =
      ({ c5State with watcher := none, activeRequestId := none },
       [.runnerKill, .send (.errorMsg "Request cancelled" (some "r1"))]) ∧
    Act.runnerRun "r2" ∈
      (handlePrompt [] { c5State with watcher := none, activeRequestId := none }
        { prompt := "again", model := none, systemPrompt := none, projectId := none
          requestId := "r2", provider := .claude, thinkingTokens := none
          images := none, files := none }).2 :=
  ⟨rfl, (cancel_active_request c5State "r1" .claude rfl rfl).1,
    (cancel_active_request c5State "r1" .claude rfl rfl).2 [] _⟩

/-! ## Claim C7 -/

/-- C7: once a runner is disposed, `run` immediately delivers
`error("Runner has been disposed")` with the call's request id, changes
no state and spawns nothing — for both the Claude and the Codex
runner. -/
theorem run_after_dispose_rejected (s : RunSt) (rid : String) (pid : Option String)
    (base : Path) (h : s.disposed = true) :
    claudeRunStart s rid pid base = (s, [.rerror (.str "Runner has been disposed") rid], none) ∧
    codexRunStart s rid pid base = (s, [.rerror (.str "Runner has been disposed") rid], none) := by
  unfold claudeRunStart codexRunStart
  rw [h]
  exact ⟨rfl, rfl⟩

def c7State : RunSt :=
  { processAlive := false, timeoutActive := false, disposed := true
    killed := false, handlersDone := false, threadId := none }

/-- Witness for C7 at a concrete disposed runner state. -/
theorem run_after_dispose_rejected_witness :
    c7State.disposed = true ∧
    claudeRunStart c7State "r9" (some "proj") ["tmp", "agent-ws-sessions"] =
      (c7State, [.rerror (.str "Runner has been disposed") "r9"], none) ∧
    codexRunStart c7State "r9" (some "proj") ["tmp", "agent-ws-sessions"] =
      (c7State, [.rerror (.str "Runner has been disposed") "r9"], none) :=
  ⟨rfl, (run_after_dispose_rejected c7State "r9" (some "proj") _ rfl).1,
    (run_after_dispose_rejected c7State "r9" (some "proj") _ rfl).2⟩

/-! ## Claim C8 -/

/-- C8: `kill()` is total (it is an ordinary function on every runner
state — the underlying `process.kill()` is wrapped in try/catch — and in
particular is a no-op beyond timer cleanup when no subprocess is live),
always cancels the timeout and drops the subprocess handle; and after
killing a live subprocess the subsequent `exit` event delivers no
callback at all — neither `onComplete` nor `onError` — in either
runner. -/
theorem kill_safe_and_suppresses_exit (s : RunSt) :
    ((killFn s).timeoutActive = false ∧ (killFn s).processAlive = false) ∧
    (s.processAlive = true →
      ∀ (rid : String) (code : Option Int) (sig : Option String),
        (runStep claudeParseLine "Claude" rid (killFn s) (.procExit code sig)).2 = [] ∧
        (runStep codexParseLine "Codex" rid (killFn s) (.procExit code sig)).2 = []) := by
  constructor
  · unfold killFn
    by_cases h : s.processAlive <;> simp [h]
  · intro h rid code sig
    unfold killFn runStep
    simp [h]

/-- Witness for C8 at a concrete live-subprocess runner state. -/
theorem kill_safe_and_suppresses_exit_witness :
    initRunSt.processAlive = true ∧
    (killFn initRunSt).timeoutActive = false ∧
    (runStep claudeParseLine "Claude" "r1" (killFn initRunSt) (.procExit (some 0) none)).2 = [] ∧
    (runStep codexParseLine "Codex" "r1" (killFn initRunSt) (.procExit (some 0) none)).2 = [] :=
  ⟨rfl, (kill_safe_and_suppresses_exit initRunSt).1.1,
    ((kill_safe_and_suppresses_exit initRunSt).2 rfl "r1" (some 0) none).1,
    ((kill_safe_and_suppresses_exit initRunSt).2 rfl "r1" (some 0) none).2⟩

/-! ## Claim C4 (path containment) -/

def c4Base : Path := ["tmp", "agent-ws-sessions"]

def c4Input : JsValue :=
  .obj [("type", .str "prompt"), ("prompt", .str "hi"),
        ("requestId", .str "r1"), ("projectId", .str "..")]

def c4Msg : PromptMessage :=
  { prompt := "hi", model := none, systemPrompt := none, projectId := some ".."
    requestId := "r1", provider := .claude, thinkingTokens := none
    images := none, files := none }

/-- C4 fails on the code: the projectId `".."` passes the charset
pattern and message validation, yet `handlePrompt` resolves the watcher
directory to the parent of the configured base directory and creates and
watches it (no containment check on that path), while the runner's own
containment check rejects the very same projectId before spawning. -/
theorem projectId_dotdot_escapes_base :
    PROJECT_ID_PATTERN ".." = true ∧
    parseClientMessage (some c4Input) = .ok (.promptMsg c4Msg) ∧
    resolveSeg c4Base ".." = ["tmp"] ∧
    underBase c4Base (resolveSeg c4Base "..") = false ∧
    (handlePrompt c4Base initConn c4Msg).2 =
      [.mkdir ["tmp"], .watcherStart ["tmp"], .runnerRun "r1"] ∧
    claudeRunStart initRunSt "r1" (some "..") c4Base =
      ({ processAlive := false, timeoutActive := false, disposed := false
         killed := false, handlersDone := false, threadId := none },
       [.rerror (.str "Invalid projectId") "r1"], none) := by
  refine ⟨by decide, by decide, by decide, by decide, rfl, rfl⟩

/-! ## Claim C1 (terminal delivery) -/

def c1ErrLine : JsValue := .obj [("type", .str "error"), ("message", .str "boom")]

def c1Evs : List RunEvent := [.stdoutLine (some c1ErrLine), .procExit (some 0) none]

/-- Counterexample to C1 as stated: for a single Codex run, the stdout
line `{"type":"error","message":"boom"}` followed by a clean exit yields
two terminal callbacks (`onError` from the stream line, which bypasses
the one-shot `finish` guard, then `onComplete` from the exit handler),
not exactly one. -/
theorem codex_stream_error_double_terminal :
    countTerm (runFold codexParseLine "Codex" "r1" initRunSt c1Evs).2 = 2 := by
  rfl

lemma countTerm_append (a b : List ROut) :
    countTerm (a ++ b) = countTerm a + countTerm b :=
  List.countP_append _ _ _

lemma countTerm_claudeRawOuts (rid : String) (e : JsValue) :
    countTerm (claudeRawOuts rid e) = 0 := by
  unfold claudeRawOuts
  split <;> try rfl
  · split <;> (try split) <;> rfl
  · split <;> rfl

lemma countTerm_claudeBlockOuts (rid : String) (b : JsValue) :
    countTerm (claudeBlockOuts rid b) = 0 := by
  unfold claudeBlockOuts
  split <;> (try split) <;> rfl

lemma countTerm_claudeBlocksOuts (rid : String) (bs : List JsValue) :
    countTerm (claudeBlocksOuts rid bs) = 0 := by
  induction bs with
  | nil => rfl
  | cons b rest ih =>
    rw [claudeBlocksOuts, countTerm_append, countTerm_claudeBlockOuts, ih]

/-- The Claude line translator never changes runner state and never
invokes a terminal callback, whatever the line contains. -/
lemma claudeParseLine_props (rid : String) (j : Option JsValue) (s : RunSt) :
    (claudeParseLine rid j s).1 = s ∧ countTerm (claudeParseLine rid j s).2 = 0 := by
  unfold claudeParseLine
  split
  · exact ⟨rfl, rfl⟩
  · split
    · exact ⟨rfl, countTerm_claudeRawOuts _ _⟩
    · exact ⟨rfl, countTerm_claudeRawOuts _ _⟩
    · exact ⟨rfl, countTerm_claudeRawOuts _ _⟩
    · split
      · exact ⟨rfl, countTerm_claudeRawOuts _ _⟩
      · exact ⟨rfl, rfl⟩
    · split
      · exact ⟨rfl, countTerm_claudeBlocksOuts _ _⟩
      · exact ⟨rfl, rfl⟩
    · exact ⟨rfl, rfl⟩

/-- The Codex line translator only records the thread id in state, and
invokes no terminal callback on lines that are not `turn.failed` or
`error` shapes. -/
lemma codexParseLine_props (rid : String) (j : Option JsValue) (s : RunSt) :
    (codexParseLine rid j s).1.handlersDone = s.handlersDone ∧
    (codexParseLine rid j s).1.killed = s.killed ∧
    (lineOk j = true → countTerm (codexParseLine rid j s).2 = 0) := by
  unfold codexParseLine lineOk
  split
  · exact ⟨rfl, rfl, fun _ => rfl⟩
  · split
    · split <;> exact ⟨rfl, rfl, fun _ => rfl⟩
    · split <;> (try split) <;> exact ⟨rfl, rfl, fun _ => rfl⟩
    · rename_i heq
      exact ⟨rfl, rfl, fun h => by rw [heq] at h; simp at h⟩
    · rename_i heq
      exact ⟨rfl, rfl, fun h => by rw [heq] at h; simp at h⟩
    · exact ⟨rfl, rfl, fun _ => rfl⟩

/-- One run step (excluding external `kill()` calls, and assuming the
line translator neither flips the guard flags nor emits terminals):
terminal output count matches the flip of the one-shot `handlersDone`
flag, `killed` implies `handlersDone`, `handlersDone` is monotone, and
any terminal-driving event leaves the guard set. -/
lemma runStep_props (parse : String → Option JsValue → RunSt → RunSt × List ROut)
    (cliName rid : String) (s : RunSt) (ev : RunEvent)
    (hev : ev ≠ .killCall)
    (hstd : ∀ j, ev = .stdoutLine j →
      (parse rid j s).1.handlersDone = s.handlersDone ∧
      (parse rid j s).1.killed = s.killed ∧
      countTerm (parse rid j s).2 = 0)
    (hpre : s.killed = true → s.handlersDone = true) :
    countTerm (runStep parse cliName rid s ev).2 =
      (if (runStep parse cliName rid s ev).1.handlersDone = true ∧ s.handlersDone = false
       then 1 else 0) ∧
    ((runStep parse cliName rid s ev).1.killed = true →
      (runStep parse cliName rid s ev).1.handlersDone = true) ∧
    (s.handlersDone = true → (runStep parse cliName rid s ev).1.handlersDone = true) ∧
    (isTermRunEvent ev = true → (runStep parse cliName rid s ev).1.handlersDone = true) := by
  cases ev with
  | stdoutLine j =>
    obtain ⟨h1, h2, h3⟩ := hstd j rfl
    refine ⟨?_, ?_, ?_, ?_⟩
    · simp [runStep, h1, h3]
    · intro hk
      rw [runStep] at hk ⊢
      rw [h1]
      exact hpre (h2 ▸ hk)
    · intro hd
      rw [runStep, h1]
      exact hd
    · intro hterm
      simp [isTermRunEvent] at hterm
  | procExit code sig =>
    by_cases hk : s.killed = true
    · have hd := hpre hk
      simp [runStep, hk, hd, isTermRunEvent, countTerm]
    · by_cases hd : s.handlersDone = true <;>
        by_cases hc : code = some 0 <;>
        · simp only [Bool.not_eq_true] at hk hd
          simp [runStep, finishR, hk, hd, hc, isTermRunEvent, countTerm,
            List.countP_cons, ROut.isTerminal]
  | procError msg =>
    by_cases hd : s.handlersDone = true
    · simp [runStep, finishR, hd, isTermRunEvent, countTerm, hpre]
    · simp only [Bool.not_eq_true] at hd
      simp [runStep, finishR, hd, isTermRunEvent, countTerm,
        List.countP_cons, ROut.isTerminal]
  | timeoutFire =>
    by_cases hd : s.handlersDone = true <;>
      by_cases hp : s.processAlive = true <;>
      · simp only [Bool.not_eq_true] at hd
        simp [runStep, finishR, killFn, hd, hp, isTermRunEvent, countTerm,
          List.countP_cons, ROut.isTerminal, hpre]
  | killCall => exact absurd rfl hev

/-- Invariant of a run fold without external `kill()` calls, over events
whose stdout lines neither flip the guard flags nor emit terminals: the
number of terminal callbacks equals 1 exactly when the one-shot flag got
set, `killed` implies the flag, the flag is monotone, and any
terminal-driving event sets it. -/
lemma runFold_props (parse : String → Option JsValue → RunSt → RunSt × List ROut)
    (cliName rid : String) :
    ∀ (evs : List RunEvent) (s : RunSt),
      noKillEvent evs = true →
      (∀ j, RunEvent.stdoutLine j ∈ evs → ∀ s',
        (parse rid j s').1.handlersDone = s'.handlersDone ∧
        (parse rid j s').1.killed = s'.killed ∧
        countTerm (parse rid j s').2 = 0) →
      (s.killed = true → s.handlersDone = true) →
      (countTerm (runFold parse cliName rid s evs).2 =
        (if (runFold parse cliName rid s evs).1.handlersDone = true ∧ s.handlersDone = false
         then 1 else 0)) ∧
      ((runFold parse cliName rid s evs).1.killed = true →
        (runFold parse cliName rid s evs).1.handlersDone = true) ∧
      (s.handlersDone = true → (runFold parse cliName rid s evs).1.handlersDone = true) ∧
      (hasTermEvent evs = true → (runFold parse cliName rid s evs).1.handlersDone = true) := by
  intro evs
  induction evs with
  | nil =>
    intro s _ _ hpre
    exact ⟨by simp [runFold, countTerm], fun hk => hpre hk, fun hd => hd,
      fun ht => by simp [hasTermEvent] at ht⟩
  | cons ev rest ih =>
    intro s hnk hstd hpre
    rw [noKillEvent, List.all_cons, Bool.and_eq_true] at hnk
    obtain ⟨hnkHead, hnkRest⟩ := hnk
    have hevNotKill : ev ≠ .killCall := by
      intro hcontra
      subst hcontra
      simp at hnkHead
    have hstdHead : ∀ j, ev = .stdoutLine j →
        (parse rid j s).1.handlersDone = s.handlersDone ∧
        (parse rid j s).1.killed = s.killed ∧
        countTerm (parse rid j s).2 = 0 := by
      intro j hj
      exact hstd j (by rw [hj]; exact List.mem_cons_self _ _) s
    have hstdRest : ∀ j, RunEvent.stdoutLine j ∈ rest → ∀ s',
        (parse rid j s').1.handlersDone = s'.handlersDone ∧
        (parse rid j s').1.killed = s'.killed ∧
        countTerm (parse rid j s').2 = 0 := by
      intro j hj s'
      exact hstd j (List.mem_cons_of_mem _ hj) s'
    obtain ⟨sc, sk, sm, st⟩ := runStep_props parse cliName rid s ev hevNotKill hstdHead hpre
    obtain ⟨rc, rk, rm, rt⟩ :=
      ih (runStep parse cliName rid s ev).1 hnkRest hstdRest sk
    rw [runFold]
    refine ⟨?_, rk, fun hd => rm (sm hd), ?_⟩
    · show countTerm ((runStep parse cliName rid s ev).2 ++
        (runFold parse cliName rid (runStep parse cliName rid s ev).1 rest).2) = _
      rw [countTerm_append, sc, rc]
      by_cases h1 : s.handlersDone = true
      · have h2 := sm h1
        have h3 := rm h2
        simp [h1, h2, h3]
      · by_cases h2 : (runStep parse cliName rid s ev).1.handlersDone = true
        · have h3 := rm h2
          simp [h1, h2, h3]
        · by_cases h3 :
            (runFold parse cliName rid (runStep parse cliName rid s ev).1 rest).1.handlersDone = true <;>
          simp [h1, h2, h3]
    · intro ht
      rw [hasTermEvent, List.any_cons, Bool.or_eq_true] at ht
      rcases ht with ht | ht
      · exact rm (st ht)
      · exact rt ht

/-- C1 amended: for every single call to `Runner.run` (Claude or Codex),
over any sequence of subprocess stdout lines, exit events, error events
and timeout firings containing at least one exit/error/timeout and no
external `kill()`, the finish-guarded terminal callback fires exactly
once — unconditionally for the Claude runner, and for the Codex runner
provided no stdout line is a recognised `error`/`turn.failed` shape
(such lines invoke `onError` directly, bypassing the guard, and add
further terminal callbacks). -/
theorem runner_terminal_exactly_once (rid : String) (s0 : RunSt) (evs : List RunEvent)
    (h0 : s0.handlersDone = false) (h1 : s0.killed = false)
    (hk : noKillEvent evs = true) (ht : hasTermEvent evs = true) :
    countTerm (runFold claudeParseLine "Claude" rid s0 evs).2 = 1 ∧
    (linesOk evs = true → countTerm (runFold codexParseLine "Codex" rid s0 evs).2 = 1) := by
  constructor
  · have hstd : ∀ j, RunEvent.stdoutLine j ∈ evs → ∀ s',
        (claudeParseLine rid j s').1.handlersDone = s'.handlersDone ∧
        (claudeParseLine rid j s').1.killed = s'.killed ∧
        countTerm (claudeParseLine rid j s').2 = 0 := by
      intro j _ s'
      obtain ⟨hfst, hcnt⟩ := claudeParseLine_props rid j s'
      exact ⟨by rw [hfst], by rw [hfst], hcnt⟩
    obtain ⟨hc, _, _, hT⟩ := runFold_props claudeParseLine "Claude" rid evs s0 hk hstd
      (fun h => absurd h (by rw [h1]; exact Bool.false_ne_true))
    rw [hc, if_pos ⟨hT ht, h0⟩]
  · intro hlines
    have hstd : ∀ j, RunEvent.stdoutLine j ∈ evs → ∀ s',
        (codexParseLine rid j s').1.handlersDone = s'.handlersDone ∧
        (codexParseLine rid j s').1.killed = s'.killed ∧
        countTerm (codexParseLine rid j s').2 = 0 := by
      intro j hmem s'
      obtain ⟨ha, hb, hcnt⟩ := codexParseLine_props rid j s'
      refine ⟨ha, hb, hcnt ?_⟩
      simp only [linesOk, List.all_eq_true] at hlines
      exact hlines _ hmem
    obtain ⟨hc, _, _, hT⟩ := runFold_props codexParseLine "Codex" rid evs s0 hk hstd
      (fun h => absurd h (by rw [h1]; exact Bool.false_ne_true))
    rw [hc, if_pos ⟨hT ht, h0⟩]

def c1WitnessEvs : List RunEvent :=
  [.stdoutLine none, .stdoutLine (some (.obj [("type", .str "turn.started")])),
   .procExit (some 0) none, .procExit (some 1) none]

/-- Witness for the amended C1: a run seeing a non-JSON line, a benign
JSON line, a clean exit and a late duplicate exit delivers exactly one
terminal callback in both runners. -/
theorem runner_terminal_exactly_once_witness :
    initRunSt.handlersDone = false ∧ initRunSt.killed = false ∧
    noKillEvent c1WitnessEvs = true ∧ hasTermEvent c1WitnessEvs = true ∧
    linesOk c1WitnessEvs = true ∧
    countTerm (runFold claudeParseLine "Claude" "r1" initRunSt c1WitnessEvs).2 = 1 ∧
    countTerm (runFold codexParseLine "Codex" "r1" initRunSt c1WitnessEvs).2 = 1 :=
  ⟨rfl, rfl, rfl, rfl, rfl,
    (runner_terminal_exactly_once "r1" initRunSt c1WitnessEvs rfl rfl rfl rfl).1,
    (runner_terminal_exactly_once "r1" initRunSt c1WitnessEvs rfl rfl rfl rfl).2 rfl⟩

/-! ## Claim C6 (oversized prompt) -/

/-- The error text produced for an oversized prompt. -/
def promptTooBigErr : String :=
  "Prompt exceeds maximum size of " ++ toString MAX_PROMPT_BYTES ++ " bytes"

lemma utf8Len_pos_length_ne_zero {p : String} (h : 0 < utf8Len p) : p.length ≠ 0 := by
  intro hlen
  have hdata : p.data = [] := List.length_eq_zero.mp hlen
  rw [utf8Len, hdata] at h
  simp at h

/-- C6: a prompt message whose `prompt` field exceeds 512KiB of UTF-8 is
rejected by validation with an error matching "exceeds maximum size",
and message handling only sends that error: the connection state is
unchanged and no runner is invoked (hence no subprocess spawned). -/
theorem oversized_prompt_rejected (fs : List (String × JsValue)) (p : String)
    (base : Path) (s : Conn)
    (htype : (JsValue.obj fs).get "type" = .str "prompt")
    (hprompt : (JsValue.obj fs).get "prompt" = .str p)
    (hsize : utf8Len p > MAX_PROMPT_BYTES) :
    parseClientMessage (some (.obj fs)) = .err promptTooBigErr ∧
    substrOf "exceeds maximum size" promptTooBigErr = true ∧
    handleClientMessage base s (some (.obj fs)) =
      (s, [.send (.errorMsg promptTooBigErr none)]) := by
  have hne : ¬ p.length = 0 :=
    utf8Len_pos_length_ne_zero (lt_trans (by rw [MAX_PROMPT_BYTES]; omega) hsize)
  have hparse : parseClientMessage (some (.obj fs)) = .err promptTooBigErr := by
    rw [parseClientMessage]
    rw [show (JsValue.obj fs).get "type" = JsValue.str "prompt" from htype]
    simp only [reduceIte]
    rw [parsePrompt, hprompt]
    simp [hne, hsize, promptTooBigErr]
  refine ⟨hparse, by decide, ?_⟩
  rw [handleClientMessage, hparse]

def c6Prompt : String := String.mk (List.replicate (MAX_PROMPT_BYTES + 1) 'a')

def c6Obj : List (String × JsValue) :=
  [("type", .str "prompt"), ("prompt", .str c6Prompt), ("requestId", .str "r1")]

lemma utf8Len_replicate (n : Nat) (c : Char) :
    utf8Len (String.mk (List.replicate n c)) = n * c.utf8Size := by
  show ((List.replicate n c).map Char.utf8Size).sum = n * c.utf8Size
  rw [List.map_replicate, List.sum_replicate, smul_eq_mul]

/-- Witness for C6 at a concrete 512KiB+1 prompt. -/
theorem oversized_prompt_rejected_witness :
    utf8Len c6Prompt > MAX_PROMPT_BYTES ∧
    parseClientMessage (some (.obj c6Obj)) = .err promptTooBigErr ∧
    substrOf "exceeds maximum size" promptTooBigErr = true ∧
    handleClientMessage [] initConn (some (.obj c6Obj)) =
      (initConn, [.send (.errorMsg promptTooBigErr none)]) := by
  have hsize : utf8Len c6Prompt > MAX_PROMPT_BYTES := by
    rw [c6Prompt, utf8Len_replicate]
    have h1 : Char.utf8Size 'a' = 1 := by decide
    rw [h1, MAX_PROMPT_BYTES]
    omega
  obtain ⟨h1, h2, h3⟩ :=
    oversized_prompt_rejected c6Obj c6Prompt [] initConn rfl rfl hsize
  exact ⟨hsize, h1, h2, h3⟩

/-! ## Claim C9 (thinkingTokens) -/

lemma getField_setFieldList (fs : List (String × JsValue)) (k : String) (v : JsValue)
    (key : String) :
    getField (setFieldList fs k v) key = if key = k then v else getField fs key := by
  induction fs with
  | nil =>
    by_cases h : key = k
    · subst h
      simp [setFieldList, getField]
    · have h' : ¬ k = key := fun hh => h hh.symm
      simp [setFieldList, getField, h, h']
  | cons hd tl ih =>
    obtain ⟨k1, w⟩ := hd
    by_cases h1 : k1 = k
    · subst h1
      by_cases h2 : key = k1
      · subst h2
        simp [setFieldList, getField]
      · have h2' : ¬ k1 = key := fun hh => h2 hh.symm
        simp [setFieldList, getField, h2, h2']
    · by_cases h2 : k1 = key
      · subst h2
        simp [setFieldList, getField, h1]
      · simp [setFieldList, getField, h1, h2, ih]

lemma getTk_ne (fs : List (String × JsValue)) (v : JsValue) (key : String)
    (h : key ≠ "thinkingTokens") :
    (JsValue.obj (setFieldList fs "thinkingTokens" v)).get key = (JsValue.obj fs).get key := by
  show getField (setFieldList fs "thinkingTokens" v) key = getField fs key
  rw [getField_setFieldList, if_neg h]

lemma parseImagesField_setTk (fs : List (String × JsValue)) (v : JsValue) :
    parseImagesField (.obj (setFieldList fs "thinkingTokens" v)) = parseImagesField (.obj fs) := by
  rw [parseImagesField, parseImagesField,
    getTk_ne fs v "images" (by decide)]

lemma parseFilesField_setTk (fs : List (String × JsValue)) (v : JsValue) :
    parseFilesField (.obj (setFieldList fs "thinkingTokens" v)) = parseFilesField (.obj fs) := by
  rw [parseFilesField, parseFilesField,
    getTk_ne fs v "files" (by decide)]

lemma parsePromptTail_setTk (fs : List (String × JsValue)) (v : JsValue)
    (prompt requestId : String) :
    (parsePromptTail (.obj (setFieldList fs "thinkingTokens" v)) prompt requestId).isOk =
      (parsePromptTail (.obj fs) prompt requestId).isOk := by
  rw [parsePromptTail, parsePromptTail, parseImagesField_setTk, parseFilesField_setTk]
  split
  · rfl
  · split <;> rfl

lemma parsePromptProj_setTk (fs : List (String × JsValue)) (v : JsValue)
    (prompt requestId : String) :
    (parsePromptProj (.obj (setFieldList fs "thinkingTokens" v)) prompt requestId).isOk =
      (parsePromptProj (.obj fs) prompt requestId).isOk := by
  rw [parsePromptProj, parsePromptProj,
    getTk_ne fs v "projectId" (by decide)]
  split
  · split
    · rfl
    · split
      · rfl
      · exact parsePromptTail_setTk fs v _ _
  · exact parsePromptTail_setTk fs v _ _

lemma parsePrompt_setTk (fs : List (String × JsValue)) (v : JsValue) :
    (parsePrompt (.obj (setFieldList fs "thinkingTokens" v))).isOk =
      (parsePrompt (.obj fs)).isOk := by
  rw [parsePrompt, parsePrompt,
    getTk_ne fs v "prompt" (by decide),
    getTk_ne fs v "requestId" (by decide),
    getTk_ne fs v "systemPrompt" (by decide)]
  split
  · split
    · rfl
    · split
      · rfl
      · split
        · split
          · rfl
          · split
            · split
              · rfl
              · exact parsePromptProj_setTk fs v _ _
            · exact parsePromptProj_setTk fs v _ _
        · rfl
  · rfl

/-- The thinkingTokens value recorded in an accepted message, spelled as
in the source: kept when a number `≥ 0`, dropped otherwise (NaN compares
false). -/
def tkNorm (raw : JsValue) : Option Rat :=
  match raw with
  | .num (.val q) => if 0 ≤ q then some q else none
  | _ => none

lemma parsePromptTail_tk (data : JsValue) (prompt requestId : String) (m : PromptMessage)
    (h : parsePromptTail data prompt requestId = .ok (.promptMsg m)) :
    m.thinkingTokens = tkNorm (data.get "thinkingTokens") := by
  rw [parsePromptTail] at h
  split at h
  · exact ParseResult.noConfusion h
  · split at h
    · exact ParseResult.noConfusion h
    · injection h with h1
      injection h1 with h2
      rw [← h2]
      rfl

lemma parsePromptProj_tk (data : JsValue) (prompt requestId : String) (m : PromptMessage)
    (h : parsePromptProj data prompt requestId = .ok (.promptMsg m)) :
    m.thinkingTokens = tkNorm (data.get "thinkingTokens") := by
  rw [parsePromptProj] at h
  split at h
  · split at h
    · exact ParseResult.noConfusion h
    · split at h
      · exact ParseResult.noConfusion h
      · exact parsePromptTail_tk data prompt requestId m h
  · exact parsePromptTail_tk data prompt requestId m h

lemma parsePrompt_tk (data : JsValue) (m : PromptMessage)
    (h : parsePrompt data = .ok (.promptMsg m)) :
    m.thinkingTokens = tkNorm (data.get "thinkingTokens") := by
  rw [parsePrompt] at h
  split at h
  · split at h
    · exact ParseResult.noConfusion h
    · split at h
      · exact ParseResult.noConfusion h
      · split at h
        · split at h
          · exact ParseResult.noConfusion h
          · split at h
            · split at h
              · exact ParseResult.noConfusion h
              · exact parsePromptProj_tk data _ _ m h
            · exact parsePromptProj_tk data _ _ m h
        · exact ParseResult.noConfusion h
  · exact ParseResult.noConfusion h

/-- C9: the `thinkingTokens` field never affects whether validation
accepts a prompt message (replacing it by any value preserves the
ok/error status), and in an accepted message it is retained exactly when
the raw field is a number `≥ 0`, and silently dropped otherwise. -/
theorem thinkingTokens_ignored_or_retained (o v : JsValue) :
    (parseClientMessage (some (setTk o v))).isOk = (parseClientMessage (some o)).isOk ∧
    (∀ m, parseClientMessage (some o) = .ok (.promptMsg m) →
      m.thinkingTokens = tkNorm (o.get "thinkingTokens")) := by
  constructor
  · cases o with
    | obj fs =>
      show (parseClientMessage (some (.obj (setFieldList fs "thinkingTokens" v)))).isOk = _
      rw [parseClientMessage, parseClientMessage,
        getTk_ne fs v "type" (by decide),
        getTk_ne fs v "requestId" (by decide)]
      split
      · split
        · exact parsePrompt_setTk fs v
        · split <;> rfl
      · rfl
    | undefined => rfl
    | nullv => rfl
    | bool b => rfl
    | num n => rfl
    | str st => rfl
    | arr xs => rfl
  · intro m h
    cases o with
    | obj fs =>
      rw [parseClientMessage] at h
      split at h
      · split at h
        · exact parsePrompt_tk _ m h
        · split at h
          · injection h with h1
            exact ClientMessage.noConfusion h1
          · exact ParseResult.noConfusion h
      · exact ParseResult.noConfusion h
    | undefined => exact ParseResult.noConfusion h
    | nullv => exact ParseResult.noConfusion h
    | bool b => exact ParseResult.noConfusion h
    | num n => exact ParseResult.noConfusion h
    | str st => exact ParseResult.noConfusion h
    | arr xs => exact ParseResult.noConfusion h

def c9Obj : JsValue :=
  .obj [("type", .str "prompt"), ("prompt", .str "hello"), ("requestId", .str "r1"),
        ("thinkingTokens", .num (.val 2048))]

def c9Msg : PromptMessage :=
  { prompt := "hello", model := none, systemPrompt := none, projectId := none
    requestId := "r1", provider := .claude, thinkingTokens := some 2048
    images := none, files := none }

/-- Witness for C9: a concrete prompt with `thinkingTokens: 2048` parses
with the field retained; replacing the field by the string `"lots"`
leaves acceptance unchanged; and the theorem's normalization holds at
this input. -/
theorem thinkingTokens_ignored_or_retained_witness :
    (parseClientMessage (some (setTk c9Obj (.str "lots")))).isOk =
      (parseClientMessage (some c9Obj)).isOk ∧
    parseClientMessage (some c9Obj) = .ok (.promptMsg c9Msg) ∧
    c9Msg.thinkingTokens = tkNorm (c9Obj.get "thinkingTokens") :=
  ⟨(thinkingTokens_ignored_or_retained c9Obj (.str "lots")).1, by decide,
    (thinkingTokens_ignored_or_retained c9Obj (.str "lots")).2 c9Msg (by decide)⟩

/-! ## Claim C10 (parse totality) -/

lemma parseImagesList_err_len :
    ∀ (imgs : List JsValue) (e : String), parseImagesList imgs = .error e → 0 < e.length := by
  intro imgs
  induction imgs with
  | nil =>
    intro e h
    exact Except.noConfusion h
  | cons img rest ih =>
    intro e h
    cases img with
    | obj fields =>
      rw [parseImagesList] at h
      split at h
      · split at h
        · injection h with h1
          rw [← h1, String.length_append, String.length_append]
          have : 0 < "Unsupported image type: ".length := by decide
          omega
        · split at h
          · injection h with h1
            rw [← h1]
            decide
          · split at h
            · injection h with h1
              exact h1 ▸ ih _ (by assumption)
            · exact Except.noConfusion h
      · injection h with h1
        rw [← h1]
        decide
    | arr xs =>
      injection h with h1
      rw [← h1]
      decide
    | undefined =>
      injection h with h1
      rw [← h1]
      decide
    | nullv =>
      injection h with h1
      rw [← h1]
      decide
    | bool b =>
      injection h with h1
      rw [← h1]
      decide
    | num n =>
      injection h with h1
      rw [← h1]
      decide
    | str st =>
      injection h with h1
      rw [← h1]
      decide

lemma parseFilesList_err_len :
    ∀ (fls : List JsValue) (total : Nat) (e : String),
      parseFilesList total fls = .error e → 0 < e.length := by
  intro fls
  induction fls with
  | nil =>
    intro total e h
    exact Except.noConfusion h
  | cons f rest ih =>
    intro total e h
    cases f with
    | obj fields =>
      rw [parseFilesList] at h
      split at h
      · split at h
        · injection h with h1
          rw [← h1]
          decide
        · split at h
          · injection h with h1
            rw [← h1]
            decide
          · split at h
            · injection h with h1
              exact h1 ▸ ih _ _ (by assumption)
            · exact Except.noConfusion h
      · injection h with h1
        rw [← h1]
        decide
    | arr xs =>
      injection h with h1
      rw [← h1]
      decide
    | undefined =>
      injection h with h1
      rw [← h1]
      decide
    | nullv =>
      injection h with h1
      rw [← h1]
      decide
    | bool b =>
      injection h with h1
      rw [← h1]
      decide
    | num n =>
      injection h with h1
      rw [← h1]
      decide
    | str st =>
      injection h with h1
      rw [← h1]
      decide

lemma parseImagesField_err_len (data : JsValue) (e : String)
    (h : parseImagesField data = .error e) : 0 < e.length := by
  rw [parseImagesField] at h
  split at h
  · split at h
    · exact Except.noConfusion h
    · split at h
      · injection h with h1
        rw [← h1]
        decide
      · split at h
        · injection h with h1
          exact h1 ▸ parseImagesList_err_len _ _ (by assumption)
        · exact Except.noConfusion h
  · exact Except.noConfusion h

lemma parseFilesField_err_len (data : JsValue) (e : String)
    (h : parseFilesField data = .error e) : 0 < e.length := by
  rw [parseFilesField] at h
  split at h
  · split at h
    · exact Except.noConfusion h
    · split at h
      · injection h with h1
        rw [← h1]
        decide
      · split at h
        · injection h with h1
          exact h1 ▸ parseFilesList_err_len _ _ _ (by assumption)
        · exact Except.noConfusion h
  · exact Except.noConfusion h

lemma parsePromptTail_total (data : JsValue) (prompt requestId : String) :
    (∃ m, parsePromptTail data prompt requestId = .ok m) ∨
    (∃ e, parsePromptTail data prompt requestId = .err e ∧ 0 < e.length) := by
  rw [parsePromptTail]
  split
  · exact Or.inr ⟨_, rfl, parseImagesField_err_len data _ (by assumption)⟩
  · split
    · exact Or.inr ⟨_, rfl, parseFilesField_err_len data _ (by assumption)⟩
    · exact Or.inl ⟨_, rfl⟩

lemma parsePromptProj_total (data : JsValue) (prompt requestId : String) :
    (∃ m, parsePromptProj data prompt requestId = .ok m) ∨
    (∃ e, parsePromptProj data prompt requestId = .err e ∧ 0 < e.length) := by
  rw [parsePromptProj]
  split
  · split
    · exact Or.inr ⟨_, rfl, by decide⟩
    · split
      · exact Or.inr ⟨_, rfl, by decide⟩
      · exact parsePromptTail_total data prompt requestId
  · exact parsePromptTail_total data prompt requestId

lemma parsePrompt_total (data : JsValue) :
    (∃ m, parsePrompt data = .ok m) ∨
    (∃ e, parsePrompt data = .err e ∧ 0 < e.length) := by
  rw [parsePrompt]
  split
  · split
    · exact Or.inr ⟨_, rfl, by decide⟩
    · split
      · exact Or.inr ⟨_, rfl, by decide⟩
      · split
        · split
          · exact Or.inr ⟨_, rfl, by decide⟩
          · split
            · split
              · exact Or.inr ⟨_, rfl, by decide⟩
              · exact parsePromptProj_total data _ _
            · exact parsePromptProj_total data _ _
        · exact Or.inr ⟨_, rfl, by decide⟩
  · exact Or.inr ⟨_, rfl, by decide⟩

/-- C10: `parseClientMessage` is total — for every input (including
non-JSON text, modelled as `none`, and JSON of any shape) it returns
either an accepted message or a nonempty descriptive error string, and
never throws (it is a plain function on all inputs). -/
theorem parse_total_descriptive (input : Option JsValue) :
    (∃ m, parseClientMessage input = .ok m) ∨
    (∃ e, parseClientMessage input = .err e ∧ 0 < e.length) := by
  cases input with
  | none => exact Or.inr ⟨_, rfl, by decide⟩
  | some data =>
    cases data with
    | obj fs =>
      rw [parseClientMessage]
      split
      · split
        · exact parsePrompt_total _
        · split
          · exact Or.inl ⟨_, rfl⟩
          · refine Or.inr ⟨_, rfl, ?_⟩
            rw [String.length_append]
            have : 0 < "Unknown message type: ".length := by decide
            omega
      · exact Or.inr ⟨_, rfl, by decide⟩
    | undefined => exact Or.inr ⟨_, rfl, by decide⟩
    | nullv => exact Or.inr ⟨_, rfl, by decide⟩
    | bool b => exact Or.inr ⟨_, rfl, by decide⟩
    | num n => exact Or.inr ⟨_, rfl, by decide⟩
    | str st => exact Or.inr ⟨_, rfl, by decide⟩
    | arr xs => exact Or.inr ⟨_, rfl, by decide⟩

/-! ## Claim C3 (file changes precede the terminal message) -/

lemma ordOk_singleton (R : String) (a : Act) : ordOk R [a] = true := by
  rw [ordOk]
  split <;> rfl

lemma ordOk_of_noTerm (R : String) :
    ∀ (acts : List Act), acts.all (fun a => !actIsTermSendR R a) = true → ordOk R acts = true := by
  intro acts
  induction acts with
  | nil => intro _; rfl
  | cons a rest ih =>
    intro h
    rw [List.all_cons, Bool.and_eq_true] at h
    rw [ordOk, if_neg ?_]
    · exact ih h.2
    · intro hterm
      rw [hterm] at h
      simp at h

lemma ordOk_append (R : String) (xs ys : List Act) :
    ordOk R (xs ++ ys) = true ↔
      (ordOk R xs = true ∧ ordOk R ys = true ∧
        (xs.any (actIsTermSendR R) = true → ys.all (fun b => !actIsFCR R b) = true)) := by
  induction xs with
  | nil => simp [ordOk]
  | cons a xs ih =>
    rw [List.cons_append, ordOk, ordOk, List.any_cons]
    by_cases ht : actIsTermSendR R a = true
    · rw [if_pos ht, if_pos ht]
      rw [Bool.and_eq_true, Bool.and_eq_true, List.all_append, Bool.and_eq_true, ih]
      constructor
      · rintro ⟨⟨hx, hy⟩, ho1, ho2, _⟩
        exact ⟨⟨hx, ho1⟩, ho2, fun _ => hy⟩
      · rintro ⟨⟨hx, ho1⟩, ho2, himp⟩
        have hy := himp (by rw [ht, Bool.true_or])
        exact ⟨⟨hx, hy⟩, ho1, ho2, fun _ => hy⟩
    · rw [if_neg ht, if_neg ht, ih]
      have hb : (actIsTermSendR R a || xs.any (actIsTermSendR R)) = xs.any (actIsTermSendR R) := by
        cases hh : actIsTermSendR R a
        · rw [Bool.false_or]
        · exact absurd hh ht
      rw [hb]

lemma watcherBoundR_some {R : String} {s : Conn} {wc : WatcherSt}
    (hwatch : s.watcher = some wc) (hw : watcherBoundR R s = false) :
    (wc.reqId == R) = false := by
  rw [watcherBoundR, hwatch] at hw
  exact hw

lemma flushActs_all_noFC (R : String) (w : Option WatcherSt) (s : Conn)
    (hwatch : s.watcher = w) (hw : watcherBoundR R s = false) :
    (flushActs w).all (fun b => !actIsFCR R b) = true := by
  cases w with
  | none => rfl
  | some wc =>
    have hwR := watcherBoundR_some hwatch hw
    rw [flushActs, List.all_eq_true]
    intro a ha
    rw [List.mem_map] at ha
    obtain ⟨c, _, hc⟩ := ha
    rw [← hc]
    simp [actIsFCR, hwR]

lemma flushActs_all_noTerm (R : String) (w : Option WatcherSt) :
    (flushActs w).all (fun b => !actIsTermSendR R b) = true := by
  cases w with
  | none => rfl
  | some wc =>
    rw [flushActs, List.all_eq_true]
    intro a ha
    rw [List.mem_map] at ha
    obtain ⟨c, _, hc⟩ := ha
    rw [← hc]
    rfl

/-- If the watcher is not bound to `R` and no prompt for `R` nor
runner-driven file change for `R` occurs, the session never sends a
`file_change` message for `R`. -/
lemma runTrace_noFCR (base : Path) (R : String) :
    ∀ (evs : List SEvent) (s : Conn),
      watcherBoundR R s = false →
      countPromptR R evs = 0 →
      noRFCR R evs = true →
      (runTrace base s evs).all (fun b => !actIsFCR R b) = true := by
  intro evs
  induction evs with
  | nil =>
    intro s _ _ _
    rfl
  | cons ev rest ih =>
    intro s hw hp hr
    rw [countPromptR, List.countP_cons] at hp
    rw [noRFCR, List.all_cons, Bool.and_eq_true] at hr
    obtain ⟨hrHead, hrRest⟩ := hr
    have hpRest : countPromptR R rest = 0 := by
      rw [countPromptR]; omega
    have hpHead : isPromptR R ev = false := by
      cases hh : isPromptR R ev
      · rfl
      · rw [hh] at hp; simp at hp
    rw [runTrace, List.all_append, Bool.and_eq_true]
    cases ev with
    | clientMsg input =>
      cases hparse : parseClientMessage input with
      | err e =>
        refine ⟨by simp [step, handleClientMessage, hparse, actIsFCR], ?_⟩
        have : (step base s (.clientMsg input)).1 = s := by
          simp [step, handleClientMessage, hparse]
        rw [this]
        exact ih s hw hpRest hrRest
      | ok c =>
        cases c with
        | promptMsg m =>
          have hmR : (m.requestId == R) = false := by
            rw [isPromptR, hparse] at hpHead
            exact hpHead
          cases hact : s.activeRequestId with
          | some r0 =>
            refine ⟨by simp [step, handleClientMessage, hparse, handlePrompt, hact, actIsFCR], ?_⟩
            have : (step base s (.clientMsg input)).1 = s := by
              simp [step, handleClientMessage, hparse, handlePrompt, hact]
            rw [this]
            exact ih s hw hpRest hrRest
          | none =>
            cases hproj : m.projectId with
            | some pid =>
              refine ⟨?_, ?_⟩
              · simp only [step, handleClientMessage, hparse, handlePrompt, hact, hproj]
                simp [actIsFCR]
              · have hnew : watcherBoundR R (step base s (.clientMsg input)).1 = false := by
                  simp only [step, handleClientMessage, hparse, handlePrompt, hact, hproj]
                  simp [watcherBoundR, hmR]
                exact ih _ hnew hpRest hrRest
            | none =>
              refine ⟨?_, ?_⟩
              · simp only [step, handleClientMessage, hparse, handlePrompt, hact, hproj]
                simp [actIsFCR]
              · have hnew : watcherBoundR R (step base s (.clientMsg input)).1 = false := by
                  simp only [step, handleClientMessage, hparse, handlePrompt, hact, hproj]
                  cases m.provider <;> exact hw
                exact ih _ hnew hpRest hrRest
        | cancelMsg rid =>
          refine ⟨?_, ?_⟩
          · simp only [step, handleClientMessage, hparse, handleCancel]
            rw [List.all_append, Bool.and_eq_true]
            constructor
            · split <;> simp [actIsFCR]
            · split <;> simp [actIsFCR]
          · have hnew : watcherBoundR R (step base s (.clientMsg input)).1 = false := by
              simp [step, handleClientMessage, hparse, handleCancel, watcherBoundR]
            exact ih _ hnew hpRest hrRest
    | runnerComplete rid =>
      refine ⟨?_, ?_⟩
      · simp only [step, handleRunnerComplete]
        rw [List.all_append, Bool.and_eq_true]
        exact ⟨flushActs_all_noFC R s.watcher s rfl hw, by simp [actIsFCR]⟩
      · have hnew : watcherBoundR R (step base s (.runnerComplete rid)).1 = false := by
          simp [step, handleRunnerComplete, watcherBoundR]
        exact ih _ hnew hpRest hrRest
    | runnerError msg rid =>
      refine ⟨?_, ?_⟩
      · simp only [step, handleRunnerError]
        rw [List.all_append, Bool.and_eq_true]
        exact ⟨flushActs_all_noFC R s.watcher s rfl hw, by simp [actIsFCR]⟩
      · have hnew : watcherBoundR R (step base s (.runnerError msg rid)).1 = false := by
          simp [step, handleRunnerError, watcherBoundR]
        exact ih _ hnew hpRest hrRest
    | runnerChunk content rid thinking =>
      exact ⟨by simp [step, actIsFCR], ih s hw hpRest hrRest⟩
    | runnerFileChange c rid =>
      have hrid : (rid == R) = false := by
        rw [isRFCR] at hrHead
        cases hh : (rid == R)
        · rfl
        · rw [hh] at hrHead; simp at hrHead
      exact ⟨by simp [step, actIsFCR, hrid], ih s hw hpRest hrRest⟩
    | watcherObserve c =>
      cases hwc : s.watcher with
      | none =>
        refine ⟨by simp [step, hwc], ?_⟩
        have : (step base s (.watcherObserve c)).1 = s := by simp [step, hwc]
        rw [this]
        exact ih s hw hpRest hrRest
      | some w =>
        refine ⟨by simp [step, hwc], ?_⟩
        have hwR := watcherBoundR_some hwc hw
        have hnew : watcherBoundR R (step base s (.watcherObserve c)).1 = false := by
          simp [step, hwc, watcherBoundR, hwR]
        exact ih _ hnew hpRest hrRest
    | watcherFire =>
      cases hwc : s.watcher with
      | none =>
        refine ⟨by simp [step, hwc], ?_⟩
        have : (step base s .watcherFire).1 = s := by simp [step, hwc]
        rw [this]
        exact ih s hw hpRest hrRest
      | some w =>
        have hwR : (w.reqId == R) = false := by
          rw [watcherBoundR, hwc] at hw
          exact hw
        cases hpend : w.pending with
        | nil =>
          refine ⟨by simp [step, hwc, hpend], ?_⟩
          have : (step base s .watcherFire).1 = s := by simp [step, hwc, hpend]
          rw [this]
          exact ih s hw hpRest hrRest
        | cons c cs =>
          refine ⟨by simp [step, hwc, hpend, actIsFCR, hwR], ?_⟩
          have hnew : watcherBoundR R (step base s .watcherFire).1 = false := by
            simp [step, hwc, hpend, watcherBoundR, hwR]
          exact ih _ hnew hpRest hrRest

lemma any_eq_false_of_all_not {α : Type} {p : α → Bool} {l : List α}
    (hall : l.all (fun a => !p a) = true) : l.any p = false := by
  cases hany : l.any p
  · rfl
  · exfalso
    rw [List.any_eq_true] at hany
    obtain ⟨x, hm, hx⟩ := hany
    rw [List.all_eq_true] at hall
    have := hall x hm
    rw [hx] at this
    simp at this

lemma ordOk_kill_pair (R : String) (a : Act) : ordOk R [Act.runnerKill, a] = true := by
  rw [ordOk, if_neg (by intro h; exact Bool.noConfusion h)]
  exact ordOk_singleton R a

/-- Main induction for C3: starting from a state whose watcher, if
bound to `R`, still has its prompt accounted for, every trace satisfying
the environment assumptions produces an action list in which no
`file_change` for `R` follows a terminal send for `R`. -/
lemma ordOk_runTrace_aux (base : Path) (R : String) :
    ∀ (evs : List SEvent) (s : Conn),
      countPromptR R evs ≤ 1 →
      noPromptAfterTermR R evs = true →
      noRFCR R evs = true →
      (s.activeRequestId = none → s.watcher = none) →
      ((s.activeRequestId = some R ∨ watcherBoundR R s = true) → countPromptR R evs = 0) →
      ordOk R (runTrace base s evs) = true := by
  intro evs
  induction evs with
  | nil =>
    intro s _ _ _ _ _
    rfl
  | cons ev rest ih =>
    intro s hc hnp hnr hInv0 hInvR
    rw [countPromptR, List.countP_cons] at hc
    rw [noPromptAfterTermR, Bool.and_eq_true] at hnp
    obtain ⟨hnpHead, hnpRest⟩ := hnp
    rw [noRFCR, List.all_cons, Bool.and_eq_true] at hnr
    obtain ⟨hnrHead, hnrRest⟩ := hnr
    have hcRest : countPromptR R rest ≤ 1 := by
      rw [countPromptR]; omega
    have hInvR0 : (s.activeRequestId = some R ∨ watcherBoundR R s = true) →
        countPromptR R rest = 0 := by
      intro pre
      have h0 := hInvR pre
      rw [countPromptR, List.countP_cons] at h0
      rw [countPromptR]
      omega
    rw [runTrace, ordOk_append]
    cases ev with
    | clientMsg input =>
      cases hparse : parseClientMessage input with
      | err e =>
        refine ⟨?_, ?_, ?_⟩
        · simp only [step, handleClientMessage, hparse]
          exact ordOk_singleton R _
        · have hs : (step base s (.clientMsg input)).1 = s := by
            simp [step, handleClientMessage, hparse]
          rw [hs]
          exact ih s hcRest hnpRest hnrRest hInv0 hInvR0
        · intro hterm
          simp only [step, handleClientMessage, hparse] at hterm
          simp [actIsTermSendR] at hterm
      | ok c =>
        cases c with
        | promptMsg m =>
          cases hact : s.activeRequestId with
          | some r0 =>
            refine ⟨?_, ?_, ?_⟩
            · simp only [step, handleClientMessage, hparse, handlePrompt, hact]
              exact ordOk_singleton R _
            · have hs : (step base s (.clientMsg input)).1 = s := by
                simp [step, handleClientMessage, hparse, handlePrompt, hact]
              rw [hs]
              exact ih s hcRest hnpRest hnrRest hInv0 hInvR0
            · intro hterm
              simp only [step, handleClientMessage, hparse, handlePrompt, hact,
                List.any_cons, List.any_nil, Bool.or_false] at hterm
              have hmR : (m.requestId == R) = true := hterm
              have hPev : isPromptR R (.clientMsg input) = true := by
                rw [isPromptR, hparse]
                exact hmR
              have hcnt0 : countPromptR R rest = 0 := by
                rw [hPev, if_pos rfl] at hc
                rw [countPromptR]
                omega
              have hwFalse : watcherBoundR R s = false := by
                cases hwb : watcherBoundR R s
                · rfl
                · have h0 := hInvR (Or.inr hwb)
                  rw [countPromptR, List.countP_cons, hPev, if_pos rfl] at h0
                  omega
              have hs : (step base s (.clientMsg input)).1 = s := by
                simp [step, handleClientMessage, hparse, handlePrompt, hact]
              rw [hs]
              exact runTrace_noFCR base R rest s hwFalse hcnt0 hnrRest
          | none =>
            have hact' : (step base s (.clientMsg input)).1.activeRequestId = some m.requestId := by
              simp only [step, handleClientMessage, hparse, handlePrompt, hact]
              cases hproj : m.projectId <;> cases m.provider <;> rfl
            refine ⟨?_, ?_, ?_⟩
            · simp only [step, handleClientMessage, hparse, handlePrompt, hact]
              cases hproj : m.projectId <;> simp [ordOk, actIsTermSendR]
            · have hInv0' : (step base s (.clientMsg input)).1.activeRequestId = none →
                  (step base s (.clientMsg input)).1.watcher = none := by
                intro h
                rw [hact'] at h
                exact Option.noConfusion h
              by_cases hmR : m.requestId = R
              · have hPev : isPromptR R (.clientMsg input) = true := by
                  rw [isPromptR, hparse]
                  show (m.requestId == R) = true
                  rw [hmR]
                  exact beq_self_eq_true R
                have hcnt0 : countPromptR R rest = 0 := by
                  rw [hPev, if_pos rfl] at hc
                  rw [countPromptR]
                  omega
                exact ih _ hcRest hnpRest hnrRest hInv0' (fun _ => hcnt0)
              · have hwat' : watcherBoundR R (step base s (.clientMsg input)).1 = false := by
                  simp only [step, handleClientMessage, hparse, handlePrompt, hact]
                  cases hproj : m.projectId with
                  | some pid =>
                    cases m.provider <;>
                      simp [watcherBoundR, beq_eq_false_iff_ne, hmR]
                  | none =>
                    have hwn : s.watcher = none := hInv0 hact
                    cases m.provider <;> simp [watcherBoundR, hwn]
                have hInvR' : ((step base s (.clientMsg input)).1.activeRequestId = some R ∨
                    watcherBoundR R (step base s (.clientMsg input)).1 = true) →
                    countPromptR R rest = 0 := by
                  rintro (hpre | hpre)
                  · rw [hact'] at hpre
                    injection hpre with hpre'
                    exact absurd hpre' hmR
                  · rw [hwat'] at hpre
                    exact Bool.noConfusion hpre
                exact ih _ hcRest hnpRest hnrRest hInv0' hInvR'
            · intro hterm
              simp only [step, handleClientMessage, hparse, handlePrompt, hact] at hterm
              cases hproj : m.projectId <;> rw [hproj] at hterm <;>
                simp [actIsTermSendR] at hterm
        | cancelMsg rid =>
          have hstep : (step base s (.clientMsg input)).1 =
              { s with watcher := none, activeRequestId := none } := by
            simp [step, handleClientMessage, hparse, handleCancel]
          refine ⟨?_, ?_, ?_⟩
          · simp only [step, handleClientMessage, hparse, handleCancel]
            cases s.activeRunner <;> cases s.activeRequestId <;>
              first
              | exact ordOk_singleton R _
              | exact ordOk_kill_pair R _
              | rfl
          · rw [hstep]
            refine ih _ hcRest hnpRest hnrRest (fun _ => rfl) ?_
            rintro (hpre | hpre)
            · exact Option.noConfusion hpre
            · exact Bool.noConfusion hpre
          · intro hterm
            rw [hstep]
            simp only [step, handleClientMessage, hparse, handleCancel] at hterm
            cases hactc : s.activeRequestId with
            | none =>
              rw [hactc] at hterm
              cases hrun : s.activeRunner <;> rw [hrun] at hterm <;>
                simp [actIsTermSendR] at hterm
            | some r =>
              rw [hactc] at hterm
              have hrR : (r == R) = true := by
                cases hrun : s.activeRunner <;> rw [hrun] at hterm <;>
                  simpa [actIsTermSendR] using hterm
              have hrEq : r = R := by simpa using hrR
              have hpre : s.activeRequestId = some R := by rw [hactc, hrEq]
              have hcnt0 := hInvR0 (Or.inl hpre)
              exact runTrace_noFCR base R rest _ rfl hcnt0 hnrRest
    | runnerComplete rid =>
      have hstep : (step base s (.runnerComplete rid)).1 =
          { s with watcher := none, activeRequestId := none } := by
        simp [step, handleRunnerComplete]
      refine ⟨?_, ?_, ?_⟩
      · simp only [step, handleRunnerComplete]
        rw [ordOk_append]
        refine ⟨ordOk_of_noTerm R _ (flushActs_all_noTerm R s.watcher),
          ordOk_singleton R _, ?_⟩
        intro hany
        rw [any_eq_false_of_all_not (flushActs_all_noTerm R s.watcher)] at hany
        exact Bool.noConfusion hany
      · rw [hstep]
        refine ih _ hcRest hnpRest hnrRest (fun _ => rfl) ?_
        rintro (hpre | hpre)
        · exact Option.noConfusion hpre
        · exact Bool.noConfusion hpre
      · intro hterm
        rw [hstep]
        simp only [step, handleRunnerComplete] at hterm
        rw [List.any_append, Bool.or_eq_true] at hterm
        have hridR : (rid == R) = true := by
          rcases hterm with h | h
          · rw [any_eq_false_of_all_not (flushActs_all_noTerm R s.watcher)] at h
            exact Bool.noConfusion h
          · simpa [actIsTermSendR] using h
        have htermEv : isTermEvR R (.runnerComplete rid) = true := hridR
        rw [htermEv] at hnpHead
        simp only [if_true] at hnpHead
        have hcnt0 : countPromptR R rest = 0 := by
          rw [countPromptR, List.countP_eq_zero]
          intro a ha
          rw [List.all_eq_true] at hnpHead
          have hh := hnpHead a ha
          simp only [Bool.not_eq_true'] at hh
          rw [hh]
          exact Bool.noConfusion
        exact runTrace_noFCR base R rest _ rfl hcnt0 hnrRest
    | runnerError msg rid =>
      have hstep : (step base s (.runnerError msg rid)).1 =
          { s with watcher := none, activeRequestId := none } := by
        simp [step, handleRunnerError]
      refine ⟨?_, ?_, ?_⟩
      · simp only [step, handleRunnerError]
        rw [ordOk_append]
        refine ⟨ordOk_of_noTerm R _ (flushActs_all_noTerm R s.watcher),
          ordOk_singleton R _, ?_⟩
        intro hany
        rw [any_eq_false_of_all_not (flushActs_all_noTerm R s.watcher)] at hany
        exact Bool.noConfusion hany
      · rw [hstep]
        refine ih _ hcRest hnpRest hnrRest (fun _ => rfl) ?_
        rintro (hpre | hpre)
        · exact Option.noConfusion hpre
        · exact Bool.noConfusion hpre
      · intro hterm
        rw [hstep]
        simp only [step, handleRunnerError] at hterm
        rw [List.any_append, Bool.or_eq_true] at hterm
        have hridR : (rid == R) = true := by
          rcases hterm with h | h
          · rw [any_eq_false_of_all_not (flushActs_all_noTerm R s.watcher)] at h
            exact Bool.noConfusion h
          · simpa [actIsTermSendR] using h
        have htermEv : isTermEvR R (.runnerError msg rid) = true := hridR
        rw [htermEv] at hnpHead
        simp only [if_true] at hnpHead
        have hcnt0 : countPromptR R rest = 0 := by
          rw [countPromptR, List.countP_eq_zero]
          intro a ha
          rw [List.all_eq_true] at hnpHead
          have hh := hnpHead a ha
          simp only [Bool.not_eq_true'] at hh
          rw [hh]
          exact Bool.noConfusion
        exact runTrace_noFCR base R rest _ rfl hcnt0 hnrRest
    | runnerChunk content rid thinking =>
      refine ⟨?_, ?_, ?_⟩
      · simp only [step]
        exact ordOk_singleton R _
      · exact ih s hcRest hnpRest hnrRest hInv0 hInvR0
      · intro hterm
        simp [step, actIsTermSendR] at hterm
    | runnerFileChange c rid =>
      refine ⟨?_, ?_, ?_⟩
      · simp only [step]
        exact ordOk_singleton R _
      · exact ih s hcRest hnpRest hnrRest hInv0 hInvR0
      · intro hterm
        simp [step, actIsTermSendR] at hterm
    | watcherObserve c =>
      cases hwc : s.watcher with
      | none =>
        have hs : (step base s (.watcherObserve c)).1 = s := by
          simp [step, hwc]
        refine ⟨by simp [step, hwc, ordOk], ?_, ?_⟩
        · rw [hs]
          exact ih s hcRest hnpRest hnrRest hInv0 hInvR0
        · intro hterm
          simp [step, hwc] at hterm
      | some w =>
        have hstep : (step base s (.watcherObserve c)).1 =
            { s with watcher := some { w with pending := w.pending ++ [c] } } := by
          simp [step, hwc]
        refine ⟨by simp [step, hwc, ordOk], ?_, ?_⟩
        · rw [hstep]
          refine ih _ hcRest hnpRest hnrRest ?_ ?_
          · intro h
            have hwn := hInv0 h
            rw [hwc] at hwn
            exact Option.noConfusion hwn
          · rintro (hpre | hpre)
            · exact hInvR0 (Or.inl hpre)
            · refine hInvR0 (Or.inr ?_)
              rw [watcherBoundR, hwc]
              exact hpre
        · intro hterm
          simp [step, hwc] at hterm
    | watcherFire =>
      cases hwc : s.watcher with
      | none =>
        have hs : (step base s .watcherFire).1 = s := by
          simp [step, hwc]
        refine ⟨by simp [step, hwc, ordOk], ?_, ?_⟩
        · rw [hs]
          exact ih s hcRest hnpRest hnrRest hInv0 hInvR0
        · intro hterm
          simp [step, hwc] at hterm
      | some w =>
        cases hpend : w.pending with
        | nil =>
          have hs : (step base s .watcherFire).1 = s := by
            simp [step, hwc, hpend]
          refine ⟨by simp [step, hwc, hpend, ordOk], ?_, ?_⟩
          · rw [hs]
            exact ih s hcRest hnpRest hnrRest hInv0 hInvR0
          · intro hterm
            simp [step, hwc, hpend] at hterm
        | cons c cs =>
          have hstep : (step base s .watcherFire).1 =
              { s with watcher := some { w with pending := cs } } := by
            simp [step, hwc, hpend]
          refine ⟨?_, ?_, ?_⟩
          · simp only [step, hwc, hpend]
            exact ordOk_singleton R _
          · rw [hstep]
            refine ih _ hcRest hnpRest hnrRest ?_ ?_
            · intro h
              have hwn := hInv0 h
              rw [hwc] at hwn
              exact Option.noConfusion hwn
            · rintro (hpre | hpre)
              · exact hInvR0 (Or.inl hpre)
              · refine hInvR0 (Or.inr ?_)
                rw [watcherBoundR, hwc]
                exact hpre
          · intro hterm
            simp [step, hwc, hpend, actIsTermSendR] at hterm

def c3RunnerEvs : List RunEvent :=
  [.procExit (some 0) none,
   .stdoutLine (some (.obj [("type", .str "item.completed"),
     ("item", .obj [("type", .str "file_change"), ("path", .str "a.txt"),
       ("change_type", .str "update"), ("content", .str "hi")])]))]

def c3CounterEvs : List SEvent :=
  [.clientMsg (some (.obj [("type", .str "prompt"), ("prompt", .str "edit files"),
      ("requestId", .str "r1"), ("projectId", .str "p1"), ("provider", .str "codex")])),
   .runnerComplete "r1",
   .runnerFileChange ⟨"a.txt", "update", some "hi"⟩ "r1"]

/-- Counterexample to C3 as stated: `file_change` messages for a request
also come from the Codex `item.completed`/`file_change` stream shapes,
which flow through the same `onFileChange` handler and are not
flush-ordered — a stdout line parsed after the `exit` handler has
already delivered the terminal (buffered line I/O runs after `exit` in
Node, and likewise after a timeout) still emits `fileChange`. First
conjunct: at the runner, exit(0) followed by a buffered `file_change`
line yields `onComplete` and then `onFileChange`. Remaining conjuncts:
for a Codex prompt with a project id (so the request has an associated
Change Watcher), the session therefore sends `complete` for `r1` and
then a `file_change` for `r1`, violating the claimed strict order. -/
theorem codex_file_change_after_terminal :
    (runFold codexParseLine "Codex" "r1" initRunSt c3RunnerEvs).2 =
      [.complete "r1", .fileChange (.str "a.txt") (.str "update") (.str "hi") "r1"] ∧
    runTrace ["tmp", "agent-ws-sessions"] initConn c3CounterEvs =
      [.mkdir ["tmp", "agent-ws-sessions", "p1"],
       .watcherStart ["tmp", "agent-ws-sessions", "p1"],
       .runnerRun "r1",
       .send (.complete "r1"),
       .send (.fileChange "r1" ⟨"a.txt", "update", some "hi"⟩)] ∧
    ordOk "r1" (runTrace ["tmp", "agent-ws-sessions"] initConn c3CounterEvs) = false :=
  ⟨rfl, by decide, by decide⟩

/-- C3 amended: on any connection, for any request id `R` that is not
reused (at most one prompt with id `R`, none after a runner terminal for
`R`) and whose file changes flow through the Change Watcher (no
runner-driven `file_change` events for `R` — Codex `file_change` stream
items forwarded through the same handler are not flush-ordered), every
`file_change` message carrying `R` is sent strictly before any
`complete`/`error` message carrying `R`: after a terminal send for `R`,
the trace contains no further `file_change` for `R` (the watcher is
flushed before the terminal message is emitted, then stopped). -/
theorem file_changes_before_terminal (base : Path) (R : String) (evs : List SEvent)
    (h1 : countPromptR R evs ≤ 1)
    (h2 : noPromptAfterTermR R evs = true)
    (h3 : noRFCR R evs = true) :
    ordOk R (runTrace base initConn evs) = true := by
  refine ordOk_runTrace_aux base R evs initConn h1 h2 h3 (fun _ => rfl) ?_
  rintro (hpre | hpre)
  · exact Option.noConfusion hpre
  · exact Bool.noConfusion hpre

def c3Evs : List SEvent :=
  [.clientMsg (some (.obj [("type", .str "prompt"), ("prompt", .str "edit files"),
      ("requestId", .str "r1"), ("projectId", .str "p1")])),
   .watcherObserve ⟨"a.txt", "update", some "x"⟩,
   .runnerComplete "r1",
   .runnerChunk "late" "r2" false]

/-- Witness for C3: a concrete admitted prompt with a watcher, a pending
debounced change, and a runner completion; the produced action trace
sends the `file_change` for `r1` before `complete` for `r1`. -/
theorem file_changes_before_terminal_witness :
    countPromptR "r1" c3Evs ≤ 1 ∧
    noPromptAfterTermR "r1" c3Evs = true ∧
    noRFCR "r1" c3Evs = true ∧
    ordOk "r1" (runTrace ["tmp", "agent-ws-sessions"] initConn c3Evs) = true :=
  ⟨by decide, by decide, by decide,
    file_changes_before_terminal ["tmp", "agent-ws-sessions"] "r1" c3Evs
      (by decide) (by decide) (by decide)⟩

end AgentWs
